import Mathlib

/-!
# The GraphQL reverse proxy pipeline (`pkg/proxy/http/proxy.go`)

A shallow embedding of `Proxy.AcceptRequest`, `Proxy.DispatchRequest` and
`Proxy.ServeHTTP`.  Every call the handlers make on something outside the file
(the three `sync.Pool`s, the config provider, the middleware invoker, the JSON
decoder, the HTTP client, the response writer, the two bodies) is recorded, in
program order, as an `Event`; the values those calls hand back are supplied by
the `Proxy` and `World` records, so a run is a pure function of them.
Panics (a nil `config.Schema`, a pool without `New`) are outside the model.
-/

namespace GraphqlProxy

/-- Go `[]byte` and `string` values: one natural number below 256 per byte. -/
abbrev Bytes := List Nat

/-- A Go `error`, identified with the bytes of its `Error()` text. -/
structure Error where
  text : Bytes
deriving DecidableEq, Repr

/-- An `io.Reader` / `io.ReadCloser`: the bytes it yields and, when reading ends
in a failure rather than end-of-file, that failure. -/
structure Stream where
  data : Bytes
  err : Option Error
deriving DecidableEq, Repr

/-- The JSON envelope, `type GraphqlJsonRequest struct`. -/
structure GraphqlJsonRequest where
  OperationName : Bytes
  Query : Bytes
deriving DecidableEq, Repr

/-- The two fields of `proxy.RequestConfig` the handlers read. -/
structure RequestConfig where
  Schema : Bytes
  BackendURL : String
deriving DecidableEq, Repr

/-- A `*bytes.Buffer`: its address and its current contents. -/
structure Buffer where
  ptr : Nat
  data : Bytes
deriving DecidableEq, Repr

def Buffer.Reset (b : Buffer) : Buffer := { b with data := [] }

def Buffer.String (b : Buffer) : Bytes := b.data

def Buffer.Write (b : Buffer) (p : Bytes) : Buffer := { b with data := b.data ++ p }

/-- A `*bufio.Reader`: its address, the bytes it holds buffered and the stream
it reads from. -/
structure Reader where
  ptr : Nat
  buf : Bytes
  rd : Stream
deriving DecidableEq, Repr

/-- `bufio.Reader.Reset`: drop what is buffered and read from `r` from now on. -/
def Reader.Reset (b : Reader) (r : Stream) : Reader := { ptr := b.ptr, buf := [], rd := r }

/-- An `http.ResponseWriter`: the status written so far, the body bytes written
so far, and how many more body bytes the connection takes before a write fails
with `broken` (`none`: it never fails). -/
structure ResponseWriter where
  status : Option Nat
  body : Bytes
  room : Option Nat
  broken : Error
deriving DecidableEq, Repr

/-- `w.WriteHeader(code)`: only the first status counts. -/
def ResponseWriter.WriteHeader (w : ResponseWriter) (code : Nat) : ResponseWriter :=
  match w.status with
  | some _ => w
  | none => { w with status := some code }

/-- `w.Write(p)`: an implicit 200 when no status was written, then as many bytes
of `p` as the connection still takes. -/
def ResponseWriter.Write (w : ResponseWriter) (p : Bytes) : ResponseWriter × Option Error :=
  let w1 := w.WriteHeader 200
  match w1.room with
  | none => ({ w1 with body := w1.body ++ p }, none)
  | some n =>
    if p.length ≤ n then
      ({ w1 with body := w1.body ++ p, room := some (n - p.length) }, none)
    else
      ({ w1 with body := w1.body ++ p.take n, room := some 0 }, some w1.broken)

/-- `bufio.Reader.WriteTo(w)`: write what is buffered and then everything the
underlying stream yields, and nothing at all when there is no byte to write;
the result is the write failure, else the read failure of the stream, else
nil. -/
def Reader.WriteTo (b : Reader) (w : ResponseWriter) : ResponseWriter × Option Error :=
  match b.buf ++ b.rd.data with
  | [] => (w, b.rd.err)
  | x :: rest =>
    match w.Write (x :: rest) with
    | (w1, some e) => (w1, some e)
    | (w1, none) => (w1, b.rd.err)

/-- A `*middleware.Invoker`: its address and its internal state. -/
structure Invoker (σ : Type) where
  ptr : Nat
  state : σ

/-- An `*http.Request`, as far as `ServeHTTP` reads it. -/
structure Request where
  HeaderGet : String → Bytes
  RequestURI : Bytes
  Body : Stream

/-- The context values handed to the middleware chain, `map[string][]byte`. -/
abbrev ContextValues := List (String × Bytes)

/-- Behaviour of the packages `proxy.go` calls into: the three methods of
`middleware.Invoker` on the invoker state, and `json.NewDecoder(body).Decode`. -/
structure World (σ : Type) where
  SetSchema : σ → Bytes → σ × Option Error
  InvokeMiddleWares : σ → ContextValues → Bytes → σ × Option Error
  RewriteRequest : σ → σ × Bytes × Option Error
  Decode : Reader → Except Error GraphqlJsonRequest

/-- The fields of `type Proxy struct`.  Each pool is given by the item its
`Get()` hands out in this run, `RequestConfigProvider` by its
`GetRequestConfig`, `Client` by its `Post`. -/
structure Proxy (σ : Type) where
  RequestConfigProvider : Option Bytes → RequestConfig
  InvokerPool : Invoker σ
  Client : String → String → Bytes → Except Error Stream
  HandleError : Error → ResponseWriter → ResponseWriter
  BufferPool : Buffer
  BufferedReaderPool : Reader

/-- The calls the handlers make, one constructor per call site kind. -/
inductive Event where
  | BufferPoolGet (buff : Nat)
  | BufferReset (buff : Nat)
  | BufferedReaderPoolGet (rd : Nat)
  | ReaderResetBody (rd : Nat)
  | GetRequestConfig (requestURI : Option Bytes)
  | InvokerPoolGet (inv : Nat)
  | InvokerPoolPut (inv : Nat)
  | SetSchema (inv : Nat) (schema : Bytes)
  | Decode (rd : Nat)
  | InvokeMiddleWares (inv : Nat) (contextValues : ContextValues) (query : Bytes)
  | RewriteRequest (inv : Nat) (buff : Nat)
  | ClientPost (url : String) (contentType : String) (body : Bytes)
  | ReaderResetResponse (rd : Nat)
  | WriteTo (rd : Nat)
  | BufferedReaderPoolPut (rd : Nat)
  | BufferPoolPut (buff : Nat)
  | BodyClose (body : Stream)
  | ResponseBodyClose (responseBody : Stream)
  | HandleError (err : Error)
deriving DecidableEq, Repr

/-! ## `encoding/json` and `unicode/utf8`, as far as `DispatchRequest` uses them -/

/-- `utf8.RuneError`, the replacement character U+FFFD. -/
def RuneError : Nat := 0xFFFD

/-- `utf8.RuneSelf`: bytes below it are single-byte runes. -/
def RuneSelf : Nat := 0x80

/-- `utf8.UTFMax`: the longest encoding of a rune, in bytes. -/
def UTFMax : Nat := 4

/-- `utf8.DecodeRuneInString`: the first rune of `s` and its width in bytes.
The `first` and `acceptRanges` tables are unfolded into the comparisons on
the lead byte and on the second byte. -/
def DecodeRuneInString (s : Bytes) : Nat × Nat :=
  match s with
  | [] => (RuneError, 0)
  | s0 :: t =>
    if s0 < 0x80 then (s0, 1)
    else if s0 < 0xC2 ∨ 0xF4 < s0 then (RuneError, 1)
    else
      let sz := if s0 < 0xE0 then 2 else if s0 < 0xF0 then 3 else 4
      let lo := if s0 = 0xE0 then 0xA0 else if s0 = 0xF0 then 0x90 else 0x80
      let hi := if s0 = 0xED then 0x9F else if s0 = 0xF4 then 0x8F else 0xBF
      if s.length < sz then (RuneError, 1)
      else
        match t with
        | [] => (RuneError, 1)
        | s1 :: t1 =>
          if s1 < lo ∨ hi < s1 then (RuneError, 1)
          else if sz ≤ 2 then ((s0 &&& 0x1F) <<< 6 ||| (s1 &&& 0x3F), 2)
          else
            match t1 with
            | [] => (RuneError, 1)
            | s2 :: t2 =>
              if s2 < 0x80 ∨ 0xBF < s2 then (RuneError, 1)
              else if sz ≤ 3 then
                ((s0 &&& 0x0F) <<< 12 ||| (s1 &&& 0x3F) <<< 6 ||| (s2 &&& 0x3F), 3)
              else
                match t2 with
                | [] => (RuneError, 1)
                | s3 :: _ =>
                  if s3 < 0x80 ∨ 0xBF < s3 then (RuneError, 1)
                  else
                    ((s0 &&& 0x07) <<< 18 ||| (s1 &&& 0x3F) <<< 12 ||| (s2 &&& 0x3F) <<< 6
                      ||| (s3 &&& 0x3F), 4)

/-- The table `hex = "0123456789abcdef"`. -/
def hex (n : Nat) : Nat := if n < 10 then 0x30 + n else 0x57 + n

/-- The table `htmlSafeSet`: the ASCII bytes the encoder copies unescaped. -/
def htmlSafeSet (b : Nat) : Bool :=
  decide (0x20 ≤ b ∧ b < 0x80 ∧ b ≠ 0x22 ∧ b ≠ 0x26 ∧ b ≠ 0x3C ∧ b ≠ 0x3E ∧ b ≠ 0x5C)

/-- The `switch b` of `appendString` for an ASCII byte outside `htmlSafeSet`.
(Go releases before 1.22 write backspace and form feed as `\u0008` and
`\u000c`; both spellings read back as the same byte.) -/
def escapeByte (b : Nat) : Bytes :=
  if b = 0x5C ∨ b = 0x22 then [0x5C, b]
  else if b = 0x08 then [0x5C, 0x62]
  else if b = 0x0C then [0x5C, 0x66]
  else if b = 0x0A then [0x5C, 0x6E]
  else if b = 0x0D then [0x5C, 0x72]
  else if b = 0x09 then [0x5C, 0x74]
  else [0x5C, 0x75, 0x30, 0x30, hex (b >>> 4), hex (b &&& 0xF)]

/-- The loop of `appendString(dst, src, escapeHTML = true)` over the rest of
`src`; `fuel` bounds the number of iterations. -/
def appendStringLoop : Nat → Bytes → Bytes
  | 0, _ => []
  | _, [] => []
  | fuel + 1, b :: rest =>
    if b < RuneSelf then
      if htmlSafeSet b then b :: appendStringLoop fuel rest
      else escapeByte b ++ appendStringLoop fuel rest
    else
      let cs := DecodeRuneInString ((b :: rest).take UTFMax)
      if cs.1 = RuneError ∧ cs.2 = 1 then
        [0x5C, 0x75, 0x66, 0x66, 0x66, 0x64] ++ appendStringLoop fuel rest
      else if cs.1 = 0x2028 ∨ cs.1 = 0x2029 then
        [0x5C, 0x75, 0x32, 0x30, 0x32, hex (cs.1 &&& 0xF)]
          ++ appendStringLoop fuel ((b :: rest).drop cs.2)
      else
        (b :: rest).take cs.2 ++ appendStringLoop fuel ((b :: rest).drop cs.2)

/-- The JSON string literal `encoding/json` writes for a Go string. -/
def appendString (src : Bytes) : Bytes :=
  [0x22] ++ appendStringLoop src.length src ++ [0x22]

/-- The bytes of the member name and colon written before the first field. -/
def operationNameKey : Bytes :=
  [0x22, 0x6F, 0x70, 0x65, 0x72, 0x61, 0x74, 0x69, 0x6F, 0x6E, 0x4E, 0x61, 0x6D, 0x65, 0x22, 0x3A]

/-- The bytes of the member name and colon written before the second field. -/
def queryKey : Bytes := [0x22, 0x71, 0x75, 0x65, 0x72, 0x79, 0x22, 0x3A]

/-- `json.NewEncoder(&out).Encode(req)` for a `GraphqlJsonRequest`: the object
with its two tagged members in declaration order, followed by a newline. -/
def Encode (req : GraphqlJsonRequest) : Except Error Bytes :=
  .ok ([0x7B] ++ operationNameKey ++ appendString req.OperationName ++ [0x2C] ++ queryKey
    ++ appendString req.Query ++ [0x7D] ++ [0x0A])

/-! ## The handlers -/

/-- The statements of `AcceptRequest` after `defer p.InvokerPool.Put(invoker)`:
the calls made, the buffer afterwards and the returned error. -/
def AcceptRequest.steps {σ : Type} (W : World σ) (contextValues : ContextValues) (body : Reader)
    (buff : Buffer) (invoker : Invoker σ) (config : RequestConfig) :
    List Event × Buffer × Option Error :=
  match W.SetSchema invoker.state config.Schema with
  | (_, some err) => ([.SetSchema invoker.ptr config.Schema], buff, some err)
  | (s1, none) =>
    match W.Decode body with
    | .error err => ([.SetSchema invoker.ptr config.Schema, .Decode body.ptr], buff, some err)
    | .ok graphqlJsonRequest =>
      let query := graphqlJsonRequest.Query
      match W.InvokeMiddleWares s1 contextValues query with
      | (_, some err) =>
        ([.SetSchema invoker.ptr config.Schema, .Decode body.ptr,
          .InvokeMiddleWares invoker.ptr contextValues query], buff, some err)
      | (s2, none) =>
        match W.RewriteRequest s2 with
        | (_, out, err) =>
          ([.SetSchema invoker.ptr config.Schema, .Decode body.ptr,
            .InvokeMiddleWares invoker.ptr contextValues query,
            .RewriteRequest invoker.ptr buff.ptr], buff.Write out, err)

/-- `func (p *Proxy) AcceptRequest(contextValues, requestURI, body, buff) error`. -/
def AcceptRequest {σ : Type} (W : World σ) (p : Proxy σ) (contextValues : ContextValues)
    (requestURI : Bytes) (body : Reader) (buff : Buffer) : List Event × Buffer × Option Error :=
  let config := p.RequestConfigProvider (some requestURI)
  let invoker := p.InvokerPool
  let r := AcceptRequest.steps W contextValues body buff invoker config
  ([.GetRequestConfig (some requestURI), .InvokerPoolGet invoker.ptr] ++ r.1
    ++ [.InvokerPoolPut invoker.ptr], r.2.1, r.2.2)

/-- `func (p *Proxy) DispatchRequest(buff *bytes.Buffer) (io.ReadCloser, error)`. -/
def DispatchRequest {σ : Type} (p : Proxy σ) (buff : Buffer) : List Event × Except Error Stream :=
  let req : GraphqlJsonRequest := { OperationName := [], Query := buff.String }
  match Encode req with
  | .error err => ([], .error err)
  | .ok out =>
    let config := p.RequestConfigProvider none
    match p.Client config.BackendURL "application/json" out with
    | .error err =>
      ([.GetRequestConfig none, .ClientPost config.BackendURL "application/json" out], .error err)
    | .ok response =>
      ([.GetRequestConfig none, .ClientPost config.BackendURL "application/json" out], .ok response)

/-- What a run of `ServeHTTP` leaves behind: the calls it made, in order, and
the response writer afterwards. -/
structure Run where
  trace : List Event
  w : ResponseWriter
deriving DecidableEq, Repr

/-- `func (p *Proxy) ServeHTTP(w http.ResponseWriter, r *http.Request)`. -/
def ServeHTTP {σ : Type} (W : World σ) (p : Proxy σ) (w : ResponseWriter) (r : Request) : Run :=
  let buff := p.BufferPool.Reset
  let userValues : ContextValues := [("user", r.HeaderGet "user")]
  let bufferedReader := p.BufferedReaderPool.Reset r.Body
  let t0 : List Event :=
    [.BufferPoolGet buff.ptr, .BufferReset buff.ptr,
     .BufferedReaderPoolGet bufferedReader.ptr, .ReaderResetBody bufferedReader.ptr]
  match AcceptRequest W p userValues r.RequestURI bufferedReader buff with
  | (t1, buff1, some err) =>
    { trace := t0 ++ t1 ++ [.BufferPoolPut buff1.ptr, .HandleError err],
      w := p.HandleError err w }
  | (t1, buff1, none) =>
    match DispatchRequest p buff1 with
    | (t2, .error _) =>
      { trace := t0 ++ t1 ++ t2 ++
          [.BufferedReaderPoolPut bufferedReader.ptr, .BufferPoolPut buff1.ptr, .BodyClose r.Body],
        w := w }
    | (t2, .ok responseBody) =>
      let bufferedReader1 := bufferedReader.Reset responseBody
      match bufferedReader1.WriteTo w with
      | (w1, some err) =>
        { trace := t0 ++ t1 ++ t2 ++
            [.ReaderResetResponse bufferedReader1.ptr, .WriteTo bufferedReader1.ptr,
             .BufferedReaderPoolPut bufferedReader1.ptr, .BufferPoolPut buff1.ptr,
             .BodyClose r.Body, .ResponseBodyClose responseBody, .HandleError err],
          w := p.HandleError err w1 }
      | (w1, none) =>
        { trace := t0 ++ t1 ++ t2 ++
            [.ReaderResetResponse bufferedReader1.ptr, .WriteTo bufferedReader1.ptr,
             .BufferedReaderPoolPut bufferedReader1.ptr, .BufferPoolPut buff1.ptr,
             .BodyClose r.Body, .ResponseBodyClose responseBody],
          w := w1 }

/-- The `HandleError` closure of `NewDefaultProxy`: status 500, then the error
text as the body (the log line is not part of the response). -/
def NewDefaultProxy.HandleError (err : Error) (w : ResponseWriter) : ResponseWriter :=
  ((w.WriteHeader 500).Write err.text).1

/-! ## Reading the outbound body back

What a JSON reader on the backend side makes of the bytes `DispatchRequest`
posts; these definitions follow RFC 8259 and are not part of `proxy.go`. -/

/-- Well-formed UTF-8: scanning `s` rune by rune with `DecodeRuneInString`
never meets an encoding error (the result `(RuneError, 1)`). -/
def utf8ValidLoop : Nat → Bytes → Bool
  | 0, s => s.isEmpty
  | _, [] => true
  | fuel + 1, b :: rest =>
    if b < RuneSelf then utf8ValidLoop fuel rest
    else
      let cs := DecodeRuneInString (b :: rest)
      if cs.1 = RuneError ∧ cs.2 = 1 then false
      else utf8ValidLoop fuel ((b :: rest).drop cs.2)

def utf8Valid (s : Bytes) : Bool := utf8ValidLoop s.length s

/-- The UTF-8 encoding of a code point. -/
def encodeRune (c : Nat) : Bytes :=
  if c < 0x80 then [c]
  else if c < 0x800 then [0xC0 + c / 64, 0x80 + c % 64]
  else if c < 0x10000 then [0xE0 + c / 4096, 0x80 + c / 64 % 64, 0x80 + c % 64]
  else [0xF0 + c / 262144, 0x80 + c / 4096 % 64, 0x80 + c / 64 % 64, 0x80 + c % 64]

/-- The value of a hexadecimal digit. -/
def hexValue (b : Nat) : Option Nat :=
  if 0x30 ≤ b ∧ b ≤ 0x39 then some (b - 0x30)
  else if 0x61 ≤ b ∧ b ≤ 0x66 then some (b - 0x57)
  else if 0x41 ≤ b ∧ b ≤ 0x46 then some (b - 0x37)
  else none

/-- The character a two-character escape of RFC 8259 stands for. -/
def unescape (c : Nat) : Option Nat :=
  if c = 0x22 then some 0x22
  else if c = 0x5C then some 0x5C
  else if c = 0x2F then some 0x2F
  else if c = 0x62 then some 0x08
  else if c = 0x66 then some 0x0C
  else if c = 0x6E then some 0x0A
  else if c = 0x72 then some 0x0D
  else if c = 0x74 then some 0x09
  else none

/-- Reading a JSON string (RFC 8259, section 7) after its opening quote: the
bytes it denotes and the input left after the closing quote.  Escapes of
surrogate code points are not handled. -/
def scanString : Bytes → Option (Bytes × Bytes)
  | [] => none
  | b :: rest =>
    if b = 0x22 then some ([], rest)
    else if b = 0x5C then
      match rest with
      | [] => none
      | c :: rest1 =>
        if c = 0x75 then
          match rest1 with
          | h1 :: h2 :: h3 :: h4 :: rest2 =>
            match hexValue h1, hexValue h2, hexValue h3, hexValue h4 with
            | some d1, some d2, some d3, some d4 =>
              let cp := ((d1 * 16 + d2) * 16 + d3) * 16 + d4
              if 0xD800 ≤ cp ∧ cp < 0xE000 then none
              else (scanString rest2).map fun r => (encodeRune cp ++ r.1, r.2)
            | _, _, _, _ => none
          | _ => none
        else
          match unescape c with
          | some x => (scanString rest1).map fun r => (x :: r.1, r.2)
          | none => none
    else if b < 0x20 then none
    else (scanString rest).map fun r => (b :: r.1, r.2)

/-- A JSON string at the head of the input. -/
def parseString : Bytes → Option (Bytes × Bytes)
  | [] => none
  | b :: rest => if b = 0x22 then scanString rest else none

/-- The input after the byte `b`, if it starts with `b`. -/
def expect (b : Nat) : Bytes → Option Bytes
  | [] => none
  | x :: rest => if x = b then some rest else none

/-- Reading back a JSON text of the form `Encode` writes: an object with the
two string members `operationName` and `query`, in this order, optionally
followed by a newline. -/
def decodeEnvelope (body : Bytes) : Option GraphqlJsonRequest :=
  (expect 0x7B body).bind fun r0 =>
  (parseString r0).bind fun k1 =>
  (expect 0x3A k1.2).bind fun r1 =>
  (parseString r1).bind fun v1 =>
  (expect 0x2C v1.2).bind fun r2 =>
  (parseString r2).bind fun k2 =>
  (expect 0x3A k2.2).bind fun r3 =>
  (parseString r3).bind fun v2 =>
  (expect 0x7D v2.2).bind fun r4 =>
  if k1.1 = [0x6F, 0x70, 0x65, 0x72, 0x61, 0x74, 0x69, 0x6F, 0x6E, 0x4E, 0x61, 0x6D, 0x65]
      ∧ k2.1 = [0x71, 0x75, 0x65, 0x72, 0x79] ∧ (r4 = [] ∨ r4 = [0x0A]) then
    some { OperationName := v1.1, Query := v2.1 }
  else none

/-- The body of the first `Client.Post` call of a run. -/
def sentBody : List Event → Option Bytes
  | [] => none
  | .ClientPost _ _ body :: _ => some body
  | _ :: rest => sentBody rest

/-! ## Vocabulary for the statements -/

/-- The call `p.AcceptRequest(userValues, []byte(r.RequestURI), bufferedReader, buff)`
with the arguments `ServeHTTP` passes. -/
def acceptCall {σ : Type} (W : World σ) (p : Proxy σ) (r : Request) :
    List Event × Buffer × Option Error :=
  AcceptRequest W p [("user", r.HeaderGet "user")] r.RequestURI
    (p.BufferedReaderPool.Reset r.Body) p.BufferPool.Reset

/-- The call `p.DispatchRequest(buff)` on the buffer `AcceptRequest` left. -/
def dispatchCall {σ : Type} (W : World σ) (p : Proxy σ) (r : Request) :
    List Event × Except Error Stream :=
  DispatchRequest p (acceptCall W p r).2.1

/-- The relay write `bufferedReader.WriteTo(w)` after
`bufferedReader.Reset(responseBody)`. -/
def relayCall {σ : Type} (p : Proxy σ) (w : ResponseWriter) (r : Request) (responseBody : Stream) :
    ResponseWriter × Option Error :=
  ((p.BufferedReaderPool.Reset r.Body).Reset responseBody).WriteTo w

/-- The four calls `ServeHTTP` makes before `AcceptRequest`. -/
def prologue {σ : Type} (p : Proxy σ) : List Event :=
  [.BufferPoolGet p.BufferPool.ptr, .BufferReset p.BufferPool.ptr,
   .BufferedReaderPoolGet p.BufferedReaderPool.ptr, .ReaderResetBody p.BufferedReaderPool.ptr]

/-- The calls that occur in the body of `AcceptRequest`. -/
def Event.inAccept : Event → Bool
  | .GetRequestConfig (some _) => true
  | .InvokerPoolGet _ => true
  | .InvokerPoolPut _ => true
  | .SetSchema _ _ => true
  | .Decode _ => true
  | .InvokeMiddleWares _ _ _ => true
  | .RewriteRequest _ _ => true
  | _ => false

/-- The calls that occur in the body of `DispatchRequest`. -/
def Event.inDispatch : Event → Bool
  | .GetRequestConfig none => true
  | .ClientPost _ _ _ => true
  | _ => false

def Event.isBufferPoolGet : Event → Bool
  | .BufferPoolGet _ => true
  | _ => false

def Event.isBufferPoolPut : Event → Bool
  | .BufferPoolPut _ => true
  | _ => false

def Event.isBufferedReaderPoolGet : Event → Bool
  | .BufferedReaderPoolGet _ => true
  | _ => false

def Event.isBufferedReaderPoolPut : Event → Bool
  | .BufferedReaderPoolPut _ => true
  | _ => false

def Event.isInvokerPoolGet : Event → Bool
  | .InvokerPoolGet _ => true
  | _ => false

def Event.isInvokerPoolPut : Event → Bool
  | .InvokerPoolPut _ => true
  | _ => false

def Event.isSetSchema : Event → Bool
  | .SetSchema _ _ => true
  | _ => false

def Event.isDecode : Event → Bool
  | .Decode _ => true
  | _ => false

def Event.isInvokeMiddleWares : Event → Bool
  | .InvokeMiddleWares _ _ _ => true
  | _ => false

def Event.isRewriteRequest : Event → Bool
  | .RewriteRequest _ _ => true
  | _ => false

def Event.isClientPost : Event → Bool
  | .ClientPost _ _ _ => true
  | _ => false

def Event.isWriteTo : Event → Bool
  | .WriteTo _ => true
  | _ => false

def Event.isHandleError : Event → Bool
  | .HandleError _ => true
  | _ => false

def Event.isBodyClose : Event → Bool
  | .BodyClose _ => true
  | _ => false

def Event.isResponseBodyClose : Event → Bool
  | .ResponseBodyClose _ => true
  | _ => false

/-- The two calls that act on the caller's response: the relay write and the
error hook. -/
def Event.isResponseWrite : Event → Bool
  | .WriteTo _ => true
  | .HandleError _ => true
  | _ => false

/-- The part of a run before its first relay write. -/
def beforeRelay (trace : List Event) : List Event :=
  trace.takeWhile fun e => !e.isWriteTo

/-! ## A concrete instance

One middleware world and one proxy, small enough to run every path of
`ServeHTTP` by evaluation. -/

/-- A decoder for the examples: it accepts the envelope texts `decodeEnvelope`
reads and rejects every other body, the empty one included. -/
def demoDecode (body : Reader) : Except Error GraphqlJsonRequest :=
  match decodeEnvelope (body.buf ++ body.rd.data) with
  | some req => .ok req
  | none => .error ⟨[0x64]⟩

/-- A `SetSchema` for the examples: it rejects the empty schema. -/
def demoSetSchema (s : Nat) (schema : Bytes) : Nat × Option Error :=
  (s + 1, if schema.isEmpty then some ⟨[0x73]⟩ else none)

/-- An `InvokeMiddleWares` for the examples: it rejects the empty query. -/
def demoInvokeMiddleWares (s : Nat) (_ : ContextValues) (query : Bytes) : Nat × Option Error :=
  (s + 1, if query.isEmpty then some ⟨[0x6D]⟩ else none)

/-- A `RewriteRequest` for the examples: it writes the single byte `q`. -/
def demoRewriteRequest (s : Nat) : Nat × Bytes × Option Error :=
  (s + 1, [0x71], none)

/-- An invoker whose state counts its calls, with the decoder `demoDecode`. -/
def demoWorld : World Nat where
  SetSchema := demoSetSchema
  InvokeMiddleWares := demoInvokeMiddleWares
  RewriteRequest := demoRewriteRequest
  Decode := demoDecode

/-- A proxy with the default error hook; its pools hand out a buffer and a
reader that still hold bytes of an earlier request, and its backend answers
with the three bytes `1, 2, 3`. -/
def demoProxy : Proxy Nat where
  RequestConfigProvider := fun _ => { Schema := [0x53], BackendURL := "http://backend" }
  InvokerPool := { ptr := 30, state := 0 }
  Client := fun _ _ _ => .ok { data := [1, 2, 3], err := none }
  HandleError := NewDefaultProxy.HandleError
  BufferPool := { ptr := 10, data := [9, 9] }
  BufferedReaderPool := { ptr := 20, buf := [8, 8], rd := { data := [7], err := none } }

/-- The same proxy, but no backend is reachable: `Client.Post` fails. -/
def demoProxyBackendDown : Proxy Nat :=
  { demoProxy with Client := fun _ _ _ => .error ⟨[0x70]⟩ }

/-- The same proxy, but the backend stream breaks after its three bytes. -/
def demoProxyBackendAborts : Proxy Nat :=
  { demoProxy with Client := fun _ _ _ => .ok { data := [1, 2, 3], err := some ⟨[0x62]⟩ } }

/-- The same proxy, but the schema of every route is empty, which `SetSchema`
of `demoWorld` rejects. -/
def demoProxyBadSchema : Proxy Nat :=
  { demoProxy with
    RequestConfigProvider := fun _ => { Schema := [], BackendURL := "http://backend" } }

/-- A fresh response writer on a connection that never fails. -/
def demoWriter : ResponseWriter := { status := none, body := [], room := none, broken := ⟨[0x77]⟩ }

/-- A fresh response writer on a connection that breaks after two body bytes. -/
def demoWriterShort : ResponseWriter := { demoWriter with room := some 2 }

/-- The bytes of the JSON envelope with an empty operation name and the query
`a`. -/
def demoEnvelope : Bytes :=
  [0x7B, 0x22, 0x6F, 0x70, 0x65, 0x72, 0x61, 0x74, 0x69, 0x6F, 0x6E, 0x4E, 0x61, 0x6D, 0x65,
   0x22, 0x3A, 0x22, 0x22, 0x2C, 0x22, 0x71, 0x75, 0x65, 0x72, 0x79, 0x22, 0x3A, 0x22, 0x61,
   0x22, 0x7D]

/-- A request whose body is that envelope. -/
def demoRequest : Request :=
  { HeaderGet := fun _ => [0x75], RequestURI := [0x2F],
    Body := { data := demoEnvelope, err := none } }

/-- A request whose body is empty, which no JSON decoder accepts. -/
def demoRequestMalformed : Request := { demoRequest with Body := { data := [], err := none } }

/-! ## The shape of a run, outcome by outcome -/

section Steps

variable {σ : Type} (W : World σ) (ctx : ContextValues) (body : Reader) (buff : Buffer)
  (invoker : Invoker σ) (config : RequestConfig)

theorem steps_of_setSchema_error {s : σ} {err : Error}
    (h : W.SetSchema invoker.state config.Schema = (s, some err)) :
    AcceptRequest.steps W ctx body buff invoker config
      = ([.SetSchema invoker.ptr config.Schema], buff, some err) := by
  simp [AcceptRequest.steps, h]

theorem steps_of_decode_error {s : σ} {err : Error}
    (h : W.SetSchema invoker.state config.Schema = (s, none))
    (hd : W.Decode body = .error err) :
    AcceptRequest.steps W ctx body buff invoker config
      = ([.SetSchema invoker.ptr config.Schema, .Decode body.ptr], buff, some err) := by
  simp [AcceptRequest.steps, h, hd]

theorem steps_of_invoke_error {s s1 : σ} {err : Error} {req : GraphqlJsonRequest}
    (h : W.SetSchema invoker.state config.Schema = (s, none))
    (hd : W.Decode body = .ok req)
    (hi : W.InvokeMiddleWares s ctx req.Query = (s1, some err)) :
    AcceptRequest.steps W ctx body buff invoker config
      = ([.SetSchema invoker.ptr config.Schema, .Decode body.ptr,
          .InvokeMiddleWares invoker.ptr ctx req.Query], buff, some err) := by
  simp [AcceptRequest.steps, h, hd, hi]

theorem steps_of_rewrite {s s1 : σ} {req : GraphqlJsonRequest}
    (h : W.SetSchema invoker.state config.Schema = (s, none))
    (hd : W.Decode body = .ok req)
    (hi : W.InvokeMiddleWares s ctx req.Query = (s1, none)) :
    AcceptRequest.steps W ctx body buff invoker config
      = ([.SetSchema invoker.ptr config.Schema, .Decode body.ptr,
          .InvokeMiddleWares invoker.ptr ctx req.Query, .RewriteRequest invoker.ptr buff.ptr],
          buff.Write (W.RewriteRequest s1).2.1, (W.RewriteRequest s1).2.2) := by
  simp [AcceptRequest.steps, h, hd, hi]

/-- The statements after the `defer` start with `SetSchema` on the acquired
invoker, call nothing but the invoker and the decoder, never touch a pool, and
leave the buffer at its address. -/
theorem steps_shape :
    ∃ rest, (AcceptRequest.steps W ctx body buff invoker config).1
        = .SetSchema invoker.ptr config.Schema :: rest ∧
      (∀ e ∈ rest, e.inAccept = true ∧ e.isInvokerPoolGet = false ∧ e.isInvokerPoolPut = false) ∧
      (AcceptRequest.steps W ctx body buff invoker config).2.1.ptr = buff.ptr := by
  rcases h : W.SetSchema invoker.state config.Schema with ⟨s, _ | e⟩
  · cases hd : W.Decode body with
    | error e =>
      rw [steps_of_decode_error W ctx body buff invoker config h hd]
      exact ⟨_, rfl, by simp [Event.inAccept, Event.isInvokerPoolGet, Event.isInvokerPoolPut], rfl⟩
    | ok req =>
      rcases hi : W.InvokeMiddleWares s ctx req.Query with ⟨s1, _ | e⟩
      · rw [steps_of_rewrite W ctx body buff invoker config h hd hi]
        exact ⟨_, rfl, by simp [Event.inAccept, Event.isInvokerPoolGet, Event.isInvokerPoolPut],
          rfl⟩
      · rw [steps_of_invoke_error W ctx body buff invoker config h hd hi]
        exact ⟨_, rfl, by simp [Event.inAccept, Event.isInvokerPoolGet, Event.isInvokerPoolPut],
          rfl⟩
  · rw [steps_of_setSchema_error W ctx body buff invoker config h]
    exact ⟨_, rfl, by simp, rfl⟩

end Steps

section Calls

variable {σ : Type} (W : World σ) (p : Proxy σ) (w : ResponseWriter) (r : Request)

theorem AcceptRequest_trace_inAccept (ctx : ContextValues) (uri : Bytes) (body : Reader)
    (buff : Buffer) : ∀ e ∈ (AcceptRequest W p ctx uri body buff).1, e.inAccept = true := by
  obtain ⟨rest, hrest, hall, _⟩ :=
    steps_shape W ctx body buff p.InvokerPool (p.RequestConfigProvider (some uri))
  intro e he
  simp only [AcceptRequest, hrest, List.mem_append, List.mem_cons, List.mem_singleton,
    List.not_mem_nil, or_false] at he
  rcases he with ((rfl | rfl) | (rfl | he)) | rfl
  · rfl
  · rfl
  · rfl
  · exact (hall e he).1
  · rfl

theorem AcceptRequest_buffer_ptr (ctx : ContextValues) (uri : Bytes) (body : Reader)
    (buff : Buffer) : (AcceptRequest W p ctx uri body buff).2.1.ptr = buff.ptr := by
  obtain ⟨_, _, _, hptr⟩ :=
    steps_shape W ctx body buff p.InvokerPool (p.RequestConfigProvider (some uri))
  simpa [AcceptRequest] using hptr

theorem DispatchRequest_trace_inDispatch (buff : Buffer) :
    ∀ e ∈ (DispatchRequest p buff).1, e.inDispatch = true := by
  intro e he
  unfold DispatchRequest at he
  simp only [Encode] at he
  split at he <;> simp at he <;> rcases he with rfl | rfl <;> rfl

theorem acceptCall_buffer_ptr : (acceptCall W p r).2.1.ptr = p.BufferPool.ptr := by
  simpa [acceptCall, Buffer.Reset] using
    AcceptRequest_buffer_ptr W p [("user", r.HeaderGet "user")] r.RequestURI
      (p.BufferedReaderPool.Reset r.Body) p.BufferPool.Reset

/-- No call of kind `k` is made inside `AcceptRequest` when `k` holds of none
of its calls. -/
theorem acceptCall_countP_zero (k : Event → Bool) (hk : ∀ e, e.inAccept = true → k e = false) :
    (acceptCall W p r).1.countP k = 0 := by
  rw [List.countP_eq_zero]
  intro e he
  have := hk e (AcceptRequest_trace_inAccept W p _ _ _ _ e he)
  simp [this]

theorem dispatchCall_countP_zero (k : Event → Bool)
    (hk : ∀ e, e.inDispatch = true → k e = false) :
    (dispatchCall W p r).1.countP k = 0 := by
  rw [List.countP_eq_zero]
  intro e he
  have := hk e (DispatchRequest_trace_inDispatch p _ e he)
  simp [this]

theorem ServeHTTP_of_accept_error {err : Error} (hA : (acceptCall W p r).2.2 = some err) :
    ServeHTTP W p w r =
      { trace := prologue p ++ (acceptCall W p r).1
          ++ [.BufferPoolPut p.BufferPool.ptr, .HandleError err],
        w := p.HandleError err w } := by
  have hptr := acceptCall_buffer_ptr W p r
  rcases hacc : acceptCall W p r with ⟨t1, buff1, e⟩
  rw [hacc] at hA hptr
  simp only at hA hptr
  subst hA
  simp only [acceptCall, Buffer.Reset, Reader.Reset] at hacc
  simp [ServeHTTP, hacc, prologue, hptr, Buffer.Reset, Reader.Reset]

theorem ServeHTTP_of_dispatch_error {err : Error} (hA : (acceptCall W p r).2.2 = none)
    (hD : (dispatchCall W p r).2 = .error err) :
    ServeHTTP W p w r =
      { trace := prologue p ++ (acceptCall W p r).1 ++ (dispatchCall W p r).1
          ++ [.BufferedReaderPoolPut p.BufferedReaderPool.ptr,
              .BufferPoolPut p.BufferPool.ptr, .BodyClose r.Body],
        w := w } := by
  have hptr := acceptCall_buffer_ptr W p r
  rcases hdis : dispatchCall W p r with ⟨t2, res⟩
  rw [hdis] at hD
  simp only at hD
  subst hD
  unfold dispatchCall at hdis
  rcases hacc : acceptCall W p r with ⟨t1, buff1, e⟩
  rw [hacc] at hA hptr hdis
  simp only at hA hptr hdis
  subst hA
  simp only [acceptCall, Buffer.Reset, Reader.Reset] at hacc
  simp [ServeHTTP, hacc, hdis, prologue, hptr, Buffer.Reset, Reader.Reset]

theorem ServeHTTP_of_relay_error {responseBody : Stream} {err : Error}
    (hA : (acceptCall W p r).2.2 = none) (hD : (dispatchCall W p r).2 = .ok responseBody)
    (hR : (relayCall p w r responseBody).2 = some err) :
    ServeHTTP W p w r =
      { trace := prologue p ++ (acceptCall W p r).1 ++ (dispatchCall W p r).1
          ++ [.ReaderResetResponse p.BufferedReaderPool.ptr, .WriteTo p.BufferedReaderPool.ptr,
              .BufferedReaderPoolPut p.BufferedReaderPool.ptr, .BufferPoolPut p.BufferPool.ptr,
              .BodyClose r.Body, .ResponseBodyClose responseBody, .HandleError err],
        w := p.HandleError err (relayCall p w r responseBody).1 } := by
  have hptr := acceptCall_buffer_ptr W p r
  rcases hdis : dispatchCall W p r with ⟨t2, res⟩
  rw [hdis] at hD
  simp only at hD
  subst hD
  unfold dispatchCall at hdis
  rcases hacc : acceptCall W p r with ⟨t1, buff1, e⟩
  rw [hacc] at hA hptr hdis
  simp only at hA hptr hdis
  subst hA
  rcases hrel : relayCall p w r responseBody with ⟨w1, e⟩
  rw [hrel] at hR
  simp only at hR
  subst hR
  simp only [acceptCall, Buffer.Reset, Reader.Reset] at hacc
  unfold relayCall at hrel
  simp only [Reader.Reset] at hrel
  simp [ServeHTTP, hacc, hdis, hrel, prologue, hptr, Buffer.Reset, Reader.Reset]

theorem ServeHTTP_of_success {responseBody : Stream}
    (hA : (acceptCall W p r).2.2 = none) (hD : (dispatchCall W p r).2 = .ok responseBody)
    (hR : (relayCall p w r responseBody).2 = none) :
    ServeHTTP W p w r =
      { trace := prologue p ++ (acceptCall W p r).1 ++ (dispatchCall W p r).1
          ++ [.ReaderResetResponse p.BufferedReaderPool.ptr, .WriteTo p.BufferedReaderPool.ptr,
              .BufferedReaderPoolPut p.BufferedReaderPool.ptr, .BufferPoolPut p.BufferPool.ptr,
              .BodyClose r.Body, .ResponseBodyClose responseBody],
        w := (relayCall p w r responseBody).1 } := by
  have hptr := acceptCall_buffer_ptr W p r
  rcases hdis : dispatchCall W p r with ⟨t2, res⟩
  rw [hdis] at hD
  simp only at hD
  subst hD
  unfold dispatchCall at hdis
  rcases hacc : acceptCall W p r with ⟨t1, buff1, e⟩
  rw [hacc] at hA hptr hdis
  simp only at hA hptr hdis
  subst hA
  rcases hrel : relayCall p w r responseBody with ⟨w1, e⟩
  rw [hrel] at hR
  simp only at hR
  subst hR
  simp only [acceptCall, Buffer.Reset, Reader.Reset] at hacc
  unfold relayCall at hrel
  simp only [Reader.Reset] at hrel
  simp [ServeHTTP, hacc, hdis, hrel, prologue, hptr, Buffer.Reset, Reader.Reset]

end Calls

/-! ## Pooled buffer and pooled reader (C1, C2) -/

section Claims

variable {σ : Type} (W : World σ) (p : Proxy σ) (w : ResponseWriter) (r : Request)

/-- Every run takes one buffer and one reader from the pools and puts the
buffer back exactly once; the reader is put back exactly once when
`AcceptRequest` succeeds and not at all when it fails. -/
theorem ServeHTTP_pool_balance :
    (ServeHTTP W p w r).trace.countP Event.isBufferPoolGet = 1 ∧
    (ServeHTTP W p w r).trace.countP Event.isBufferedReaderPoolGet = 1 ∧
    (ServeHTTP W p w r).trace.countP Event.isBufferPoolPut = 1 ∧
    (ServeHTTP W p w r).trace.countP Event.isBufferedReaderPoolPut
      = if (acceptCall W p r).2.2 = none then 1 else 0 := by
  have a1 := acceptCall_countP_zero W p r Event.isBufferPoolGet (by intro e; cases e <;> simp [Event.inAccept, Event.isBufferPoolGet])
  have a2 := acceptCall_countP_zero W p r Event.isBufferedReaderPoolGet (by intro e; cases e <;> simp [Event.inAccept, Event.isBufferedReaderPoolGet])
  have a3 := acceptCall_countP_zero W p r Event.isBufferPoolPut (by intro e; cases e <;> simp [Event.inAccept, Event.isBufferPoolPut])
  have a4 := acceptCall_countP_zero W p r Event.isBufferedReaderPoolPut (by intro e; cases e <;> simp [Event.inAccept, Event.isBufferedReaderPoolPut])
  have d1 := dispatchCall_countP_zero W p r Event.isBufferPoolGet (by intro e; cases e <;> simp [Event.inDispatch, Event.isBufferPoolGet])
  have d2 := dispatchCall_countP_zero W p r Event.isBufferedReaderPoolGet (by intro e; cases e <;> simp [Event.inDispatch, Event.isBufferedReaderPoolGet])
  have d3 := dispatchCall_countP_zero W p r Event.isBufferPoolPut (by intro e; cases e <;> simp [Event.inDispatch, Event.isBufferPoolPut])
  have d4 := dispatchCall_countP_zero W p r Event.isBufferedReaderPoolPut (by intro e; cases e <;> simp [Event.inDispatch, Event.isBufferedReaderPoolPut])
  cases hA : (acceptCall W p r).2.2 with
  | some err =>
    rw [ServeHTTP_of_accept_error W p w r hA]
    simp [List.countP_append, List.countP_cons, prologue, a1, a2, a3, a4, Event.isBufferPoolGet,
      Event.isBufferedReaderPoolGet, Event.isBufferPoolPut, Event.isBufferedReaderPoolPut]
  | none =>
    cases hD : (dispatchCall W p r).2 with
    | error err =>
      rw [ServeHTTP_of_dispatch_error W p w r hA hD]
      simp [List.countP_append, List.countP_cons, prologue, a1, a2, a3, a4, d1, d2, d3, d4,
        Event.isBufferPoolGet, Event.isBufferedReaderPoolGet, Event.isBufferPoolPut,
        Event.isBufferedReaderPoolPut]
    | ok responseBody =>
      cases hR : (relayCall p w r responseBody).2 with
      | some err =>
        rw [ServeHTTP_of_relay_error W p w r hA hD hR]
        simp [List.countP_append, List.countP_cons, prologue, a1, a2, a3, a4, d1, d2, d3, d4,
          Event.isBufferPoolGet, Event.isBufferedReaderPoolGet, Event.isBufferPoolPut,
          Event.isBufferedReaderPoolPut]
      | none =>
        rw [ServeHTTP_of_success W p w r hA hD hR]
        simp [List.countP_append, List.countP_cons, prologue, a1, a2, a3, a4, d1, d2, d3, d4,
          Event.isBufferPoolGet, Event.isBufferedReaderPoolGet, Event.isBufferPoolPut,
          Event.isBufferedReaderPoolPut]

end Claims

/-- C1, at a request whose body does not decode: `AcceptRequest` fails, the
run takes one buffer and one reader from the pools, puts the buffer back once
and never puts the reader back. -/
theorem ServeHTTP_accept_failure_keeps_reader :
    (acceptCall demoWorld demoProxy demoRequestMalformed).2.2 = some ⟨[0x64]⟩ ∧
    (ServeHTTP demoWorld demoProxy demoWriter demoRequestMalformed).trace.countP
      Event.isBufferPoolGet = 1 ∧
    (ServeHTTP demoWorld demoProxy demoWriter demoRequestMalformed).trace.countP
      Event.isBufferPoolPut = 1 ∧
    (ServeHTTP demoWorld demoProxy demoWriter demoRequestMalformed).trace.countP
      Event.isBufferedReaderPoolGet = 1 ∧
    (ServeHTTP demoWorld demoProxy demoWriter demoRequestMalformed).trace.countP
      Event.isBufferedReaderPoolPut = 0 := by
  decide





section Counting

variable {σ : Type} (W : World σ) (p : Proxy σ) (r : Request)

theorem acceptCall_count_zero (x : Event) (hx : x.inAccept = false) :
    (acceptCall W p r).1.count x = 0 := by
  rw [List.count_eq_zero]
  intro hmem
  have := AcceptRequest_trace_inAccept W p _ _ _ _ x hmem
  simp [hx] at this

theorem dispatchCall_count_zero (x : Event) (hx : x.inDispatch = false) :
    (dispatchCall W p r).1.count x = 0 := by
  rw [List.count_eq_zero]
  intro hmem
  have := DispatchRequest_trace_inDispatch p _ x hmem
  simp [hx] at this

end Counting

/-! ## Dispatch failure (C2) -/

/-- C2: when `AcceptRequest` succeeds and `DispatchRequest` returns an error,
the response writer is left exactly as it was, the run contains no relay write
and no call of the error hook, the buffer and the reader taken from the pools
are each put back exactly once, and the inbound body is closed exactly once. -/
theorem ServeHTTP_dispatch_failure_cleans_up {σ : Type} (W : World σ) (p : Proxy σ)
    (w : ResponseWriter) (r : Request) (err : Error)
    (hA : (acceptCall W p r).2.2 = none) (hD : (dispatchCall W p r).2 = .error err) :
    (ServeHTTP W p w r).w = w ∧
    (ServeHTTP W p w r).trace.countP Event.isWriteTo = 0 ∧
    (ServeHTTP W p w r).trace.countP Event.isHandleError = 0 ∧
    (ServeHTTP W p w r).trace.countP Event.isBufferPoolPut = 1 ∧
    (ServeHTTP W p w r).trace.count (.BufferPoolPut p.BufferPool.ptr) = 1 ∧
    (ServeHTTP W p w r).trace.countP Event.isBufferedReaderPoolPut = 1 ∧
    (ServeHTTP W p w r).trace.count (.BufferedReaderPoolPut p.BufferedReaderPool.ptr) = 1 ∧
    (ServeHTTP W p w r).trace.countP Event.isBodyClose = 1 ∧
    (ServeHTTP W p w r).trace.count (.BodyClose r.Body) = 1 := by
  have a1 := acceptCall_countP_zero W p r Event.isWriteTo
    (by intro e; cases e <;> simp [Event.inAccept, Event.isWriteTo])
  have a2 := acceptCall_countP_zero W p r Event.isHandleError
    (by intro e; cases e <;> simp [Event.inAccept, Event.isHandleError])
  have a3 := acceptCall_countP_zero W p r Event.isBufferPoolPut
    (by intro e; cases e <;> simp [Event.inAccept, Event.isBufferPoolPut])
  have a4 := acceptCall_countP_zero W p r Event.isBufferedReaderPoolPut
    (by intro e; cases e <;> simp [Event.inAccept, Event.isBufferedReaderPoolPut])
  have a5 := acceptCall_countP_zero W p r Event.isBodyClose
    (by intro e; cases e <;> simp [Event.inAccept, Event.isBodyClose])
  have a6 := acceptCall_count_zero W p r (.BufferPoolPut p.BufferPool.ptr) rfl
  have a7 := acceptCall_count_zero W p r (.BufferedReaderPoolPut p.BufferedReaderPool.ptr) rfl
  have a8 := acceptCall_count_zero W p r (.BodyClose r.Body) rfl
  have d1 := dispatchCall_countP_zero W p r Event.isWriteTo
    (by intro e; cases e <;> simp [Event.inDispatch, Event.isWriteTo])
  have d2 := dispatchCall_countP_zero W p r Event.isHandleError
    (by intro e; cases e <;> simp [Event.inDispatch, Event.isHandleError])
  have d3 := dispatchCall_countP_zero W p r Event.isBufferPoolPut
    (by intro e; cases e <;> simp [Event.inDispatch, Event.isBufferPoolPut])
  have d4 := dispatchCall_countP_zero W p r Event.isBufferedReaderPoolPut
    (by intro e; cases e <;> simp [Event.inDispatch, Event.isBufferedReaderPoolPut])
  have d5 := dispatchCall_countP_zero W p r Event.isBodyClose
    (by intro e; cases e <;> simp [Event.inDispatch, Event.isBodyClose])
  have d6 := dispatchCall_count_zero W p r (.BufferPoolPut p.BufferPool.ptr) rfl
  have d7 := dispatchCall_count_zero W p r (.BufferedReaderPoolPut p.BufferedReaderPool.ptr) rfl
  have d8 := dispatchCall_count_zero W p r (.BodyClose r.Body) rfl
  rw [ServeHTTP_of_dispatch_error W p w r hA hD]
  simp [List.countP_append, List.countP_cons, List.count_append, List.count_cons, prologue,
    a1, a2, a3, a4, a5, a6, a7, a8, d1, d2, d3, d4, d5, d6, d7, d8, Event.isWriteTo,
    Event.isHandleError, Event.isBufferPoolPut, Event.isBufferedReaderPoolPut, Event.isBodyClose]

/-- C2 at the demo proxy with the backend down. -/
theorem ServeHTTP_dispatch_failure_cleans_up_witness :
    (ServeHTTP demoWorld demoProxyBackendDown demoWriter demoRequest).w = demoWriter ∧
    (ServeHTTP demoWorld demoProxyBackendDown demoWriter demoRequest).trace.countP
      Event.isWriteTo = 0 ∧
    (ServeHTTP demoWorld demoProxyBackendDown demoWriter demoRequest).trace.countP
      Event.isHandleError = 0 ∧
    (ServeHTTP demoWorld demoProxyBackendDown demoWriter demoRequest).trace.countP
      Event.isBufferPoolPut = 1 ∧
    (ServeHTTP demoWorld demoProxyBackendDown demoWriter demoRequest).trace.count
      (.BufferPoolPut 10) = 1 ∧
    (ServeHTTP demoWorld demoProxyBackendDown demoWriter demoRequest).trace.countP
      Event.isBufferedReaderPoolPut = 1 ∧
    (ServeHTTP demoWorld demoProxyBackendDown demoWriter demoRequest).trace.count
      (.BufferedReaderPoolPut 20) = 1 ∧
    (ServeHTTP demoWorld demoProxyBackendDown demoWriter demoRequest).trace.countP
      Event.isBodyClose = 1 ∧
    (ServeHTTP demoWorld demoProxyBackendDown demoWriter demoRequest).trace.count
      (.BodyClose demoRequest.Body) = 1 :=
  ServeHTTP_dispatch_failure_cleans_up demoWorld demoProxyBackendDown demoWriter demoRequest
    ⟨[0x70]⟩ (by decide) rfl



/-! ## Decode failure (C3) -/

/-- C3 as stated fails: with a route whose schema `SetSchema` rejects, a body
that does not decode makes `AcceptRequest` return the `SetSchema` error, not
the decode error, and the error hook is never called with the decode error. -/
theorem AcceptRequest_schema_error_precedes_decode_error :
    demoWorld.Decode (demoProxyBadSchema.BufferedReaderPool.Reset demoRequestMalformed.Body)
      = .error ⟨[0x64]⟩ ∧
    (acceptCall demoWorld demoProxyBadSchema demoRequestMalformed).2.2 = some ⟨[0x73]⟩ ∧
    (acceptCall demoWorld demoProxyBadSchema demoRequestMalformed).2.2 ≠ some ⟨[0x64]⟩ ∧
    (ServeHTTP demoWorld demoProxyBadSchema demoWriter demoRequestMalformed).trace.count
      (.HandleError ⟨[0x64]⟩) = 0 ∧
    (ServeHTTP demoWorld demoProxyBadSchema demoWriter demoRequestMalformed).trace.count
      (.HandleError ⟨[0x73]⟩) = 1 :=
  ⟨rfl, by decide, by decide, by decide, by decide⟩

/-- C3, amended: when the inbound body does not decode, `AcceptRequest` returns
an error, namely the decode error if `SetSchema` succeeded and the `SetSchema`
error otherwise; it calls neither `InvokeMiddleWares` nor `RewriteRequest` and
leaves the buffer as it was handed in; it reads the body once if `SetSchema`
succeeded and not at all otherwise; `ServeHTTP` then calls the error hook
exactly once, with that error, and makes none of the calls of
`DispatchRequest`. -/
theorem ServeHTTP_decode_failure {σ : Type} (W : World σ) (p : Proxy σ)
    (w : ResponseWriter) (r : Request) (derr : Error)
    (hDec : W.Decode (p.BufferedReaderPool.Reset r.Body) = .error derr) :
    (acceptCall W p r).2.2 = some
      ((W.SetSchema p.InvokerPool.state (p.RequestConfigProvider (some r.RequestURI)).Schema).2.getD
        derr) ∧
    (acceptCall W p r).1.countP Event.isInvokeMiddleWares = 0 ∧
    (acceptCall W p r).1.countP Event.isRewriteRequest = 0 ∧
    (acceptCall W p r).2.1 = p.BufferPool.Reset ∧
    (acceptCall W p r).1.countP Event.isDecode
      = (if (W.SetSchema p.InvokerPool.state
          (p.RequestConfigProvider (some r.RequestURI)).Schema).2.isNone then 1 else 0) ∧
    (ServeHTTP W p w r).trace.countP Event.isHandleError = 1 ∧
    (ServeHTTP W p w r).trace.count (.HandleError
      ((W.SetSchema p.InvokerPool.state (p.RequestConfigProvider (some r.RequestURI)).Schema).2.getD
        derr)) = 1 ∧
    (ServeHTTP W p w r).trace.countP Event.inDispatch = 0 := by
  have hacc : (acceptCall W p r).2.2 = some
      ((W.SetSchema p.InvokerPool.state
        (p.RequestConfigProvider (some r.RequestURI)).Schema).2.getD derr) ∧
      (acceptCall W p r).1.countP Event.isInvokeMiddleWares = 0 ∧
      (acceptCall W p r).1.countP Event.isRewriteRequest = 0 ∧
      (acceptCall W p r).2.1 = p.BufferPool.Reset ∧
      (acceptCall W p r).1.countP Event.isDecode
        = (if (W.SetSchema p.InvokerPool.state
            (p.RequestConfigProvider (some r.RequestURI)).Schema).2.isNone then 1 else 0) := by
    rcases hs : W.SetSchema p.InvokerPool.state
        (p.RequestConfigProvider (some r.RequestURI)).Schema with ⟨s, _ | e⟩
    · simp [acceptCall, AcceptRequest, steps_of_decode_error W _ _ _ _ _ hs hDec,
        Event.isInvokeMiddleWares, Event.isRewriteRequest, Event.isDecode]
    · simp [acceptCall, AcceptRequest, steps_of_setSchema_error W _ _ _ _ _ hs,
        Event.isInvokeMiddleWares, Event.isRewriteRequest, Event.isDecode]
  refine ⟨hacc.1, hacc.2.1, hacc.2.2.1, hacc.2.2.2.1, hacc.2.2.2.2, ?_⟩
  have a1 := acceptCall_countP_zero W p r Event.isHandleError
    (by intro e; cases e <;> simp [Event.inAccept, Event.isHandleError])
  have a2 := acceptCall_countP_zero W p r Event.inDispatch
    (by intro e; cases e <;> simp [Event.inAccept, Event.inDispatch]
        rename_i o; cases o <;> simp [Event.inAccept, Event.inDispatch])
  have a3 := acceptCall_count_zero W p r (.HandleError
      ((W.SetSchema p.InvokerPool.state
        (p.RequestConfigProvider (some r.RequestURI)).Schema).2.getD derr)) rfl
  rw [ServeHTTP_of_accept_error W p w r hacc.1]
  simp [List.countP_append, List.countP_cons, List.count_append, List.count_cons, prologue,
    a1, a2, a3, Event.isHandleError, Event.inDispatch]

/-- C3, amended, at the demo proxy and a request with an empty body. -/
theorem ServeHTTP_decode_failure_witness :
    (acceptCall demoWorld demoProxy demoRequestMalformed).2.2 = some ⟨[0x64]⟩ ∧
    (acceptCall demoWorld demoProxy demoRequestMalformed).1.countP Event.isInvokeMiddleWares = 0 ∧
    (acceptCall demoWorld demoProxy demoRequestMalformed).1.countP Event.isRewriteRequest = 0 ∧
    (acceptCall demoWorld demoProxy demoRequestMalformed).2.1 = demoProxy.BufferPool.Reset ∧
    (acceptCall demoWorld demoProxy demoRequestMalformed).1.countP Event.isDecode = 1 ∧
    (ServeHTTP demoWorld demoProxy demoWriter demoRequestMalformed).trace.countP
      Event.isHandleError = 1 ∧
    (ServeHTTP demoWorld demoProxy demoWriter demoRequestMalformed).trace.count
      (.HandleError ⟨[0x64]⟩) = 1 ∧
    (ServeHTTP demoWorld demoProxy demoWriter demoRequestMalformed).trace.countP
      Event.inDispatch = 0 :=
  ServeHTTP_decode_failure demoWorld demoProxy demoWriter demoRequestMalformed ⟨[0x64]⟩ rfl

/-! ## Relay (C4) -/

theorem WriteHeader_body (w : ResponseWriter) (code : Nat) :
    (w.WriteHeader code).body = w.body := by
  unfold ResponseWriter.WriteHeader
  cases w.status <;> rfl

/-- A `Write` that returns no error has appended all of `p`. -/
theorem Write_of_ok (w : ResponseWriter) (p : Bytes) (h : (w.Write p).2 = none) :
    (w.Write p).1.body = w.body ++ p := by
  unfold ResponseWriter.Write at *
  cases hroom : (w.WriteHeader 200).room with
  | none => simp [hroom, WriteHeader_body]
  | some n =>
    simp only [hroom] at h ⊢
    by_cases hn : p.length ≤ n
    · simp [hn, WriteHeader_body]
    · simp [hn] at h

/-- A relay write that returns no error has appended exactly the bytes of the
backend stream to the response body, and the stream ended without a failure. -/
theorem relayCall_of_ok {σ : Type} (p : Proxy σ) (w : ResponseWriter) (r : Request)
    (responseBody : Stream) (hR : (relayCall p w r responseBody).2 = none) :
    (relayCall p w r responseBody).1.body = w.body ++ responseBody.data ∧
    responseBody.err = none := by
  unfold relayCall Reader.WriteTo Reader.Reset at *
  simp only [List.nil_append] at hR ⊢
  cases hd : responseBody.data with
  | nil =>
    simp only [hd] at hR ⊢
    exact ⟨by simp, hR⟩
  | cons x rest =>
    simp only [hd] at hR ⊢
    rcases hw : w.Write (x :: rest) with ⟨w1, _ | e⟩
    · have := Write_of_ok w (x :: rest) (by rw [hw])
      rw [hw] at this hR
      exact ⟨this, hR⟩
    · rw [hw] at hR
      simp at hR

/-- The relay write returns no error when the write of the backend bytes to
the caller does not fail and the backend stream ends without a failure. -/
theorem relayCall_ok {σ : Type} (p : Proxy σ) (w : ResponseWriter) (r : Request)
    (responseBody : Stream) (hW : (w.Write responseBody.data).2 = none)
    (hE : responseBody.err = none) : (relayCall p w r responseBody).2 = none := by
  unfold relayCall Reader.WriteTo Reader.Reset
  simp only [List.nil_append]
  cases hd : responseBody.data with
  | nil => simpa using hE
  | cons x rest =>
    rw [hd] at hW
    rcases hw : w.Write (x :: rest) with ⟨w1, _ | e⟩
    · simpa [hw] using hE
    · rw [hw] at hW
      simp at hW

/-- C4 as stated fails: with a writer that takes every byte, so that no write
to the caller fails, and a backend stream that breaks after its three bytes,
`AcceptRequest` and `DispatchRequest` succeed, yet the error hook is called
and the response holds the three backend bytes followed by the error text. -/
theorem ServeHTTP_backend_read_failure_adds_bytes :
    (acceptCall demoWorld demoProxyBackendAborts demoRequest).2.2 = none ∧
    (dispatchCall demoWorld demoProxyBackendAborts demoRequest).2
      = .ok { data := [1, 2, 3], err := some ⟨[0x62]⟩ } ∧
    demoWriter.room = none ∧
    (demoWriter.Write [1, 2, 3]).2 = none ∧
    ((demoWriter.Write [1, 2, 3]).1.Write [0x62]).2 = none ∧
    (ServeHTTP demoWorld demoProxyBackendAborts demoWriter demoRequest).w.body
      = [1, 2, 3, 0x62] ∧
    (ServeHTTP demoWorld demoProxyBackendAborts demoWriter demoRequest).w.body
      ≠ demoWriter.body ++ [1, 2, 3] ∧
    (ServeHTTP demoWorld demoProxyBackendAborts demoWriter demoRequest).trace.countP
      Event.isHandleError = 1 :=
  ⟨by decide, rfl, rfl, by decide, by decide, by decide, by decide, by decide⟩

/-- C4, amended: when `AcceptRequest` and `DispatchRequest` succeed, the write
of the backend bytes to the caller does not fail and the backend stream ends
without a read failure, the body bytes of the response after `ServeHTTP` are
the bytes that were there before followed by exactly the bytes of the backend
response body, the relay write is the only write (it happens once, the error
hook is not called), and the response writer is the one the relay write
left. -/
theorem ServeHTTP_relays_backend_body {σ : Type} (W : World σ) (p : Proxy σ)
    (w : ResponseWriter) (r : Request) (responseBody : Stream)
    (hA : (acceptCall W p r).2.2 = none) (hD : (dispatchCall W p r).2 = .ok responseBody)
    (hW : (w.Write responseBody.data).2 = none) (hE : responseBody.err = none) :
    (ServeHTTP W p w r).w.body = w.body ++ responseBody.data ∧
    (ServeHTTP W p w r).w = (relayCall p w r responseBody).1 ∧
    (ServeHTTP W p w r).trace.countP Event.isWriteTo = 1 ∧
    (ServeHTTP W p w r).trace.countP Event.isHandleError = 0 := by
  have hR := relayCall_ok p w r responseBody hW hE
  have a1 := acceptCall_countP_zero W p r Event.isWriteTo
    (by intro e; cases e <;> simp [Event.inAccept, Event.isWriteTo])
  have a2 := acceptCall_countP_zero W p r Event.isHandleError
    (by intro e; cases e <;> simp [Event.inAccept, Event.isHandleError])
  have d1 := dispatchCall_countP_zero W p r Event.isWriteTo
    (by intro e; cases e <;> simp [Event.inDispatch, Event.isWriteTo])
  have d2 := dispatchCall_countP_zero W p r Event.isHandleError
    (by intro e; cases e <;> simp [Event.inDispatch, Event.isHandleError])
  rw [ServeHTTP_of_success W p w r hA hD hR]
  refine ⟨(relayCall_of_ok p w r responseBody hR).1, rfl, ?_, ?_⟩ <;>
    simp [List.countP_append, List.countP_cons, prologue, a1, a2, d1, d2, Event.isWriteTo,
      Event.isHandleError]

/-- C4, amended, at the demo proxy: the three backend bytes arrive unchanged. -/
theorem ServeHTTP_relays_backend_body_witness :
    (ServeHTTP demoWorld demoProxy demoWriter demoRequest).w.body
      = demoWriter.body ++ [1, 2, 3] ∧
    (ServeHTTP demoWorld demoProxy demoWriter demoRequest).w
      = (relayCall demoProxy demoWriter demoRequest { data := [1, 2, 3], err := none }).1 ∧
    (ServeHTTP demoWorld demoProxy demoWriter demoRequest).trace.countP Event.isWriteTo = 1 ∧
    (ServeHTTP demoWorld demoProxy demoWriter demoRequest).trace.countP Event.isHandleError = 0 :=
  ServeHTTP_relays_backend_body demoWorld demoProxy demoWriter demoRequest
    { data := [1, 2, 3], err := none } (by decide) rfl (by decide) rfl

/-! ## The error hook and the writes on the response (C6, C7) -/

theorem acceptCall_filter_nil {σ : Type} (W : World σ) (p : Proxy σ) (r : Request)
    (k : Event → Bool) (hk : ∀ e, e.inAccept = true → k e = false) :
    (acceptCall W p r).1.filter k = [] := by
  rw [List.filter_eq_nil_iff]
  intro e he
  have := hk e (AcceptRequest_trace_inAccept W p _ _ _ _ e he)
  simp [this]

theorem dispatchCall_filter_nil {σ : Type} (W : World σ) (p : Proxy σ) (r : Request)
    (k : Event → Bool) (hk : ∀ e, e.inDispatch = true → k e = false) :
    (dispatchCall W p r).1.filter k = [] := by
  rw [List.filter_eq_nil_iff]
  intro e he
  have := hk e (DispatchRequest_trace_inDispatch p _ e he)
  simp [this]

/-- C6: the calls of the error hook in a run are: exactly one, with the error
`AcceptRequest` returned, when `AcceptRequest` fails; none when
`DispatchRequest` fails; exactly one, with the error the relay write returned,
when the relay write fails; none when every step succeeds.  So no run calls
the hook more than once. -/
theorem ServeHTTP_HandleError_calls {σ : Type} (W : World σ) (p : Proxy σ)
    (w : ResponseWriter) (r : Request) :
    (∀ err, (acceptCall W p r).2.2 = some err →
      (ServeHTTP W p w r).trace.filter Event.isHandleError = [.HandleError err]) ∧
    (∀ err, (acceptCall W p r).2.2 = none → (dispatchCall W p r).2 = .error err →
      (ServeHTTP W p w r).trace.filter Event.isHandleError = []) ∧
    (∀ responseBody err, (acceptCall W p r).2.2 = none →
      (dispatchCall W p r).2 = .ok responseBody → (relayCall p w r responseBody).2 = some err →
      (ServeHTTP W p w r).trace.filter Event.isHandleError = [.HandleError err]) ∧
    (∀ responseBody, (acceptCall W p r).2.2 = none →
      (dispatchCall W p r).2 = .ok responseBody → (relayCall p w r responseBody).2 = none →
      (ServeHTTP W p w r).trace.filter Event.isHandleError = []) ∧
    (ServeHTTP W p w r).trace.countP Event.isHandleError ≤ 1 := by
  have a1 := acceptCall_filter_nil W p r Event.isHandleError
    (by intro e; cases e <;> simp [Event.inAccept, Event.isHandleError])
  have d1 := dispatchCall_filter_nil W p r Event.isHandleError
    (by intro e; cases e <;> simp [Event.inDispatch, Event.isHandleError])
  have c1 : ∀ err, (acceptCall W p r).2.2 = some err →
      (ServeHTTP W p w r).trace.filter Event.isHandleError = [.HandleError err] := by
    intro err hA
    rw [ServeHTTP_of_accept_error W p w r hA]
    simp [List.filter_append, List.filter_cons, prologue, a1, Event.isHandleError]
  have c2 : ∀ err, (acceptCall W p r).2.2 = none → (dispatchCall W p r).2 = .error err →
      (ServeHTTP W p w r).trace.filter Event.isHandleError = [] := by
    intro err hA hD
    rw [ServeHTTP_of_dispatch_error W p w r hA hD]
    simp [List.filter_append, List.filter_cons, prologue, a1, d1, Event.isHandleError]
  have c3 : ∀ responseBody err, (acceptCall W p r).2.2 = none →
      (dispatchCall W p r).2 = .ok responseBody → (relayCall p w r responseBody).2 = some err →
      (ServeHTTP W p w r).trace.filter Event.isHandleError = [.HandleError err] := by
    intro responseBody err hA hD hR
    rw [ServeHTTP_of_relay_error W p w r hA hD hR]
    simp [List.filter_append, List.filter_cons, prologue, a1, d1, Event.isHandleError]
  have c4 : ∀ responseBody, (acceptCall W p r).2.2 = none →
      (dispatchCall W p r).2 = .ok responseBody → (relayCall p w r responseBody).2 = none →
      (ServeHTTP W p w r).trace.filter Event.isHandleError = [] := by
    intro responseBody hA hD hR
    rw [ServeHTTP_of_success W p w r hA hD hR]
    simp [List.filter_append, List.filter_cons, prologue, a1, d1, Event.isHandleError]
  refine ⟨c1, c2, c3, c4, ?_⟩
  rw [List.countP_eq_length_filter]
  cases hA : (acceptCall W p r).2.2 with
  | some err => simp [c1 err hA]
  | none =>
    cases hD : (dispatchCall W p r).2 with
    | error err => simp [c2 err hA hD]
    | ok responseBody =>
      cases hR : (relayCall p w r responseBody).2 with
      | some err => simp [c3 responseBody err hA hD hR]
      | none => simp [c4 responseBody hA hD hR]

/-- C6 on the four paths of the demo proxy. -/
theorem ServeHTTP_HandleError_calls_witness :
    (ServeHTTP demoWorld demoProxy demoWriter demoRequestMalformed).trace.filter
      Event.isHandleError = [.HandleError ⟨[0x64]⟩] ∧
    (ServeHTTP demoWorld demoProxyBackendDown demoWriter demoRequest).trace.filter
      Event.isHandleError = [] ∧
    (ServeHTTP demoWorld demoProxy demoWriterShort demoRequest).trace.filter
      Event.isHandleError = [.HandleError ⟨[0x77]⟩] ∧
    (ServeHTTP demoWorld demoProxy demoWriter demoRequest).trace.filter
      Event.isHandleError = [] :=
  ⟨(ServeHTTP_HandleError_calls demoWorld demoProxy demoWriter demoRequestMalformed).1
      ⟨[0x64]⟩ (by decide),
   (ServeHTTP_HandleError_calls demoWorld demoProxyBackendDown demoWriter demoRequest).2.1
      ⟨[0x70]⟩ (by decide) rfl,
   (ServeHTTP_HandleError_calls demoWorld demoProxy demoWriterShort demoRequest).2.2.1
      { data := [1, 2, 3], err := none } ⟨[0x77]⟩ (by decide) rfl (by decide),
   (ServeHTTP_HandleError_calls demoWorld demoProxy demoWriter demoRequest).2.2.2.1
      { data := [1, 2, 3], err := none } (by decide) rfl (by decide)⟩

/-- C7 as stated fails: when the backend stream breaks after three bytes, the
run executes the relay write and then the error hook, both on the caller's
response, which ends up holding the three relayed bytes followed by the error
text. -/
theorem ServeHTTP_relay_failure_writes_twice :
    (ServeHTTP demoWorld demoProxyBackendAborts demoWriter demoRequest).trace.filter
      Event.isResponseWrite = [.WriteTo 20, .HandleError ⟨[0x62]⟩] ∧
    (ServeHTTP demoWorld demoProxyBackendAborts demoWriter demoRequest).trace.countP
      Event.isResponseWrite = 2 ∧
    (ServeHTTP demoWorld demoProxyBackendAborts demoWriter demoRequest).w.body
      = [1, 2, 3, 0x62] := by
  decide

/-- C7, amended: a run executes the relay write at most once and the error hook
at most once; when the relay write returns an error, the calls on the
response are exactly the relay write followed by one call of the error hook
with that error; in every other run at most one of the two is executed. -/
theorem ServeHTTP_response_writes {σ : Type} (W : World σ) (p : Proxy σ)
    (w : ResponseWriter) (r : Request) :
    (ServeHTTP W p w r).trace.countP Event.isWriteTo ≤ 1 ∧
    (ServeHTTP W p w r).trace.countP Event.isHandleError ≤ 1 ∧
    (∀ responseBody err, (acceptCall W p r).2.2 = none →
      (dispatchCall W p r).2 = .ok responseBody →
      (relayCall p w r responseBody).2 = some err →
      (ServeHTTP W p w r).trace.filter Event.isResponseWrite
        = [.WriteTo p.BufferedReaderPool.ptr, .HandleError err]) ∧
    ((¬ ∃ responseBody err, (acceptCall W p r).2.2 = none ∧
        (dispatchCall W p r).2 = .ok responseBody ∧
        (relayCall p w r responseBody).2 = some err) →
      (ServeHTTP W p w r).trace.countP Event.isResponseWrite ≤ 1) := by
  have a1 := acceptCall_countP_zero W p r Event.isWriteTo
    (by intro e; cases e <;> simp [Event.inAccept, Event.isWriteTo])
  have a2 := acceptCall_countP_zero W p r Event.isHandleError
    (by intro e; cases e <;> simp [Event.inAccept, Event.isHandleError])
  have a3 := acceptCall_countP_zero W p r Event.isResponseWrite
    (by intro e; cases e <;> simp [Event.inAccept, Event.isResponseWrite])
  have a4 := acceptCall_filter_nil W p r Event.isResponseWrite
    (by intro e; cases e <;> simp [Event.inAccept, Event.isResponseWrite])
  have d1 := dispatchCall_countP_zero W p r Event.isWriteTo
    (by intro e; cases e <;> simp [Event.inDispatch, Event.isWriteTo])
  have d2 := dispatchCall_countP_zero W p r Event.isHandleError
    (by intro e; cases e <;> simp [Event.inDispatch, Event.isHandleError])
  have d3 := dispatchCall_countP_zero W p r Event.isResponseWrite
    (by intro e; cases e <;> simp [Event.inDispatch, Event.isResponseWrite])
  have d4 := dispatchCall_filter_nil W p r Event.isResponseWrite
    (by intro e; cases e <;> simp [Event.inDispatch, Event.isResponseWrite])
  have hrelay : ∀ responseBody err, (acceptCall W p r).2.2 = none →
      (dispatchCall W p r).2 = .ok responseBody →
      (relayCall p w r responseBody).2 = some err →
      (ServeHTTP W p w r).trace.filter Event.isResponseWrite
        = [.WriteTo p.BufferedReaderPool.ptr, .HandleError err] := by
    intro responseBody err hA hD hR
    rw [ServeHTTP_of_relay_error W p w r hA hD hR]
    simp [List.filter_append, List.filter_cons, prologue, a4, d4, Event.isResponseWrite]
  have hcount : (ServeHTTP W p w r).trace.countP Event.isWriteTo ≤ 1 ∧
      (ServeHTTP W p w r).trace.countP Event.isHandleError ≤ 1 ∧
      ((¬ ∃ responseBody err, (acceptCall W p r).2.2 = none ∧
          (dispatchCall W p r).2 = .ok responseBody ∧
          (relayCall p w r responseBody).2 = some err) →
        (ServeHTTP W p w r).trace.countP Event.isResponseWrite ≤ 1) := by
    cases hA : (acceptCall W p r).2.2 with
    | some err =>
      refine ⟨?_, ?_, fun _ => ?_⟩ <;>
        rw [ServeHTTP_of_accept_error W p w r hA] <;>
        simp [List.countP_append, List.countP_cons, prologue, a1, a2, a3, Event.isWriteTo,
          Event.isHandleError, Event.isResponseWrite]
    | none =>
      cases hD : (dispatchCall W p r).2 with
      | error err =>
        refine ⟨?_, ?_, fun _ => ?_⟩ <;>
          rw [ServeHTTP_of_dispatch_error W p w r hA hD] <;>
          simp [List.countP_append, List.countP_cons, prologue, a1, a2, a3, d1, d2, d3,
            Event.isWriteTo, Event.isHandleError, Event.isResponseWrite]
      | ok responseBody =>
        cases hR : (relayCall p w r responseBody).2 with
        | some err =>
          refine ⟨?_, ?_, fun hno => ?_⟩
          · rw [ServeHTTP_of_relay_error W p w r hA hD hR]
            simp [List.countP_append, List.countP_cons, prologue, a1, d1, Event.isWriteTo]
          · rw [ServeHTTP_of_relay_error W p w r hA hD hR]
            simp [List.countP_append, List.countP_cons, prologue, a2, d2, Event.isHandleError]
          · exact absurd ⟨responseBody, err, rfl, rfl, hR⟩ hno
        | none =>
          refine ⟨?_, ?_, fun _ => ?_⟩ <;>
            rw [ServeHTTP_of_success W p w r hA hD hR] <;>
            simp [List.countP_append, List.countP_cons, prologue, a1, a2, a3, d1, d2, d3,
              Event.isWriteTo, Event.isHandleError, Event.isResponseWrite]
  exact ⟨hcount.1, hcount.2.1, hrelay, hcount.2.2⟩

/-- C7, amended, on the demo proxy: a run whose relay write fails because the
connection to the caller breaks after two bytes, and a run whose dispatch
fails. -/
theorem ServeHTTP_response_writes_witness :
    (ServeHTTP demoWorld demoProxy demoWriterShort demoRequest).trace.filter
      Event.isResponseWrite = [.WriteTo 20, .HandleError ⟨[0x77]⟩] ∧
    (ServeHTTP demoWorld demoProxyBackendDown demoWriter demoRequest).trace.countP
      Event.isResponseWrite ≤ 1 :=
  ⟨(ServeHTTP_response_writes demoWorld demoProxy demoWriterShort demoRequest).2.2.1
      { data := [1, 2, 3], err := none } ⟨[0x77]⟩ (by decide) rfl (by decide),
   (ServeHTTP_response_writes demoWorld demoProxyBackendDown demoWriter demoRequest).2.2.2
      (fun h => h.elim fun _ h1 => h1.elim fun _ h2 => nomatch h2.2.1)⟩

/-! ## The pooled invoker (C8, C9) -/

/-- C8: every run of `AcceptRequest` starts with the config lookup for the
route key, the `Get` on the invoker pool and `SetSchema` on that invoker with
the schema of that config, so every `InvokeMiddleWares` and `RewriteRequest`
call of the run comes after `SetSchema`; and when `SetSchema` returns an error
the run consists of these three calls and the deferred `Put` only (no decode
of the inbound body, no middleware call), the buffer is untouched and the
error returned is the one of `SetSchema`. -/
theorem AcceptRequest_sets_schema_first {σ : Type} (W : World σ) (p : Proxy σ)
    (ctx : ContextValues) (uri : Bytes) (body : Reader) (buff : Buffer) :
    (∃ rest, (AcceptRequest W p ctx uri body buff).1 =
      .GetRequestConfig (some uri) :: .InvokerPoolGet p.InvokerPool.ptr ::
        .SetSchema p.InvokerPool.ptr (p.RequestConfigProvider (some uri)).Schema :: rest) ∧
    (∀ pre e post, (AcceptRequest W p ctx uri body buff).1 = pre ++ e :: post →
      e.isInvokeMiddleWares = true ∨ e.isRewriteRequest = true →
      Event.SetSchema p.InvokerPool.ptr (p.RequestConfigProvider (some uri)).Schema ∈ pre) ∧
    (∀ s err,
      W.SetSchema p.InvokerPool.state (p.RequestConfigProvider (some uri)).Schema = (s, some err) →
      AcceptRequest W p ctx uri body buff =
        ([.GetRequestConfig (some uri), .InvokerPoolGet p.InvokerPool.ptr,
          .SetSchema p.InvokerPool.ptr (p.RequestConfigProvider (some uri)).Schema,
          .InvokerPoolPut p.InvokerPool.ptr], buff, some err)) := by
  obtain ⟨rest, hrest, _, _⟩ :=
    steps_shape W ctx body buff p.InvokerPool (p.RequestConfigProvider (some uri))
  have hshape : (AcceptRequest W p ctx uri body buff).1 =
      .GetRequestConfig (some uri) :: .InvokerPoolGet p.InvokerPool.ptr ::
        .SetSchema p.InvokerPool.ptr (p.RequestConfigProvider (some uri)).Schema ::
          (rest ++ [.InvokerPoolPut p.InvokerPool.ptr]) := by
    simp [AcceptRequest, hrest]
  refine ⟨⟨_, hshape⟩, ?_, ?_⟩
  · intro pre e post hsplit he
    rw [hshape] at hsplit
    match pre, hsplit with
    | [], h =>
      simp only [List.nil_append, List.cons.injEq] at h
      rw [← h.1] at he
      simp [Event.isInvokeMiddleWares, Event.isRewriteRequest] at he
    | [_], h =>
      simp only [List.cons_append, List.nil_append, List.cons.injEq] at h
      rw [← h.2.1] at he
      simp [Event.isInvokeMiddleWares, Event.isRewriteRequest] at he
    | [_, _], h =>
      simp only [List.cons_append, List.nil_append, List.cons.injEq] at h
      rw [← h.2.2.1] at he
      simp [Event.isInvokeMiddleWares, Event.isRewriteRequest] at he
    | _ :: _ :: c :: _, h =>
      simp only [List.cons_append, List.cons.injEq] at h
      rw [← h.2.2.1]
      simp
  · intro s err hs
    simp [AcceptRequest, steps_of_setSchema_error W ctx body buff _ _ hs]

/-- C8 on the demo proxy: the run on a good route, and the run on a route
whose schema is rejected. -/
theorem AcceptRequest_sets_schema_first_witness :
    Event.SetSchema 30 [0x53] ∈
      [Event.GetRequestConfig (some [0x2F]), Event.InvokerPoolGet 30, Event.SetSchema 30 [0x53],
        Event.Decode 20] ∧
    AcceptRequest demoWorld demoProxyBadSchema [] [0x2F]
        (demoProxy.BufferedReaderPool.Reset demoRequest.Body) demoProxy.BufferPool.Reset =
      ([.GetRequestConfig (some [0x2F]), .InvokerPoolGet 30, .SetSchema 30 [],
        .InvokerPoolPut 30], demoProxy.BufferPool.Reset, some ⟨[0x73]⟩) :=
  ⟨(AcceptRequest_sets_schema_first demoWorld demoProxy [] [0x2F]
      (demoProxy.BufferedReaderPool.Reset demoRequest.Body) demoProxy.BufferPool.Reset).2.1
      [.GetRequestConfig (some [0x2F]), .InvokerPoolGet 30, .SetSchema 30 [0x53], .Decode 20]
      (.InvokeMiddleWares 30 [] [0x61]) [.RewriteRequest 30 10, .InvokerPoolPut 30]
      (by decide) (Or.inl rfl),
   (AcceptRequest_sets_schema_first demoWorld demoProxyBadSchema [] [0x2F]
      (demoProxy.BufferedReaderPool.Reset demoRequest.Body) demoProxy.BufferPool.Reset).2.2
      1 ⟨[0x73]⟩ rfl⟩

/-- C9: every run of `AcceptRequest`, whatever its steps return, takes exactly
one invoker from the pool, puts exactly one invoker back, the one it took, and
that `Put` is the last call of the run. -/
theorem AcceptRequest_returns_invoker {σ : Type} (W : World σ) (p : Proxy σ)
    (ctx : ContextValues) (uri : Bytes) (body : Reader) (buff : Buffer) :
    (AcceptRequest W p ctx uri body buff).1.countP Event.isInvokerPoolGet = 1 ∧
    (AcceptRequest W p ctx uri body buff).1.count (.InvokerPoolGet p.InvokerPool.ptr) = 1 ∧
    (AcceptRequest W p ctx uri body buff).1.countP Event.isInvokerPoolPut = 1 ∧
    (AcceptRequest W p ctx uri body buff).1.count (.InvokerPoolPut p.InvokerPool.ptr) = 1 ∧
    (AcceptRequest W p ctx uri body buff).1.getLast? = some (.InvokerPoolPut p.InvokerPool.ptr) := by
  obtain ⟨rest, hrest, hall, _⟩ :=
    steps_shape W ctx body buff p.InvokerPool (p.RequestConfigProvider (some uri))
  have hshape : (AcceptRequest W p ctx uri body buff).1 =
      .GetRequestConfig (some uri) :: .InvokerPoolGet p.InvokerPool.ptr ::
        .SetSchema p.InvokerPool.ptr (p.RequestConfigProvider (some uri)).Schema ::
          (rest ++ [.InvokerPoolPut p.InvokerPool.ptr]) := by
    simp [AcceptRequest, hrest]
  have g0 : rest.countP Event.isInvokerPoolGet = 0 := by
    rw [List.countP_eq_zero]
    intro e he
    simp [(hall e he).2.1]
  have p0 : rest.countP Event.isInvokerPoolPut = 0 := by
    rw [List.countP_eq_zero]
    intro e he
    simp [(hall e he).2.2]
  have g1 : rest.count (.InvokerPoolGet p.InvokerPool.ptr) = 0 := by
    rw [List.count_eq_zero]
    intro he
    have := (hall _ he).2.1
    simp [Event.isInvokerPoolGet] at this
  have p1 : rest.count (.InvokerPoolPut p.InvokerPool.ptr) = 0 := by
    rw [List.count_eq_zero]
    intro he
    have := (hall _ he).2.2
    simp [Event.isInvokerPoolPut] at this
  rw [hshape]
  refine ⟨?_, ?_, ?_, ?_, ?_⟩
  · simp [List.countP_append, List.countP_cons, g0, Event.isInvokerPoolGet]
  · simp [List.count_append, List.count_cons, g1]
  · simp [List.countP_append, List.countP_cons, p0, Event.isInvokerPoolPut]
  · simp [List.count_append, List.count_cons, p1]
  · have hcat : Event.GetRequestConfig (some uri) :: .InvokerPoolGet p.InvokerPool.ptr ::
        .SetSchema p.InvokerPool.ptr (p.RequestConfigProvider (some uri)).Schema ::
          (rest ++ [.InvokerPoolPut p.InvokerPool.ptr])
        = (Event.GetRequestConfig (some uri) :: .InvokerPoolGet p.InvokerPool.ptr ::
            .SetSchema p.InvokerPool.ptr (p.RequestConfigProvider (some uri)).Schema :: rest)
          ++ [.InvokerPoolPut p.InvokerPool.ptr] := by simp
    rw [hcat, List.getLast?_concat]

/-! ## The two bodies (C10) -/

/-- Up to the relay write, a run that reaches it consists of the prologue, the
calls of `AcceptRequest`, the calls of `DispatchRequest` and the reset of the
reader onto the backend stream. -/
theorem beforeRelay_of_relay {σ : Type} (W : World σ) (p : Proxy σ) (r : Request)
    (rest : List Event) :
    beforeRelay (prologue p ++ (acceptCall W p r).1 ++ (dispatchCall W p r).1
        ++ (.ReaderResetResponse p.BufferedReaderPool.ptr
          :: .WriteTo p.BufferedReaderPool.ptr :: rest))
      = prologue p ++ (acceptCall W p r).1 ++ (dispatchCall W p r).1
        ++ [.ReaderResetResponse p.BufferedReaderPool.ptr] := by
  have hpre : ∀ e ∈ prologue p ++ (acceptCall W p r).1 ++ (dispatchCall W p r).1,
      (!e.isWriteTo) = true := by
    intro e he
    simp only [List.mem_append] at he
    rcases he with (he | he) | he
    · simp only [prologue, List.mem_cons, List.mem_singleton, List.not_mem_nil, or_false] at he
      rcases he with rfl | rfl | rfl | rfl <;> rfl
    · have := AcceptRequest_trace_inAccept W p _ _ _ _ e he
      cases e <;> simp_all [Event.inAccept, Event.isWriteTo]
    · have := DispatchRequest_trace_inDispatch p _ e he
      cases e <;> simp_all [Event.inDispatch, Event.isWriteTo]
  unfold beforeRelay
  rw [List.takeWhile_append_of_pos hpre]
  simp [List.takeWhile_cons, Event.isWriteTo]

/-- C10: when `DispatchRequest` returns a response stream, the run closes that
stream exactly once and the inbound body exactly once, whether or not the
relay write returns an error, there is exactly one relay write, and the part
of the run before it contains no close, so both closes come after it; when
`DispatchRequest` fails, the run closes no backend stream and closes the
inbound body exactly once. -/
theorem ServeHTTP_closes_bodies {σ : Type} (W : World σ) (p : Proxy σ)
    (w : ResponseWriter) (r : Request) :
    (∀ responseBody, (acceptCall W p r).2.2 = none →
      (dispatchCall W p r).2 = .ok responseBody →
      (ServeHTTP W p w r).trace.countP Event.isBodyClose = 1 ∧
      (ServeHTTP W p w r).trace.count (.BodyClose r.Body) = 1 ∧
      (ServeHTTP W p w r).trace.countP Event.isResponseBodyClose = 1 ∧
      (ServeHTTP W p w r).trace.count (.ResponseBodyClose responseBody) = 1 ∧
      (ServeHTTP W p w r).trace.countP Event.isWriteTo = 1 ∧
      (beforeRelay (ServeHTTP W p w r).trace).countP Event.isBodyClose = 0 ∧
      (beforeRelay (ServeHTTP W p w r).trace).countP Event.isResponseBodyClose = 0) ∧
    (∀ err, (acceptCall W p r).2.2 = none → (dispatchCall W p r).2 = .error err →
      (ServeHTTP W p w r).trace.countP Event.isResponseBodyClose = 0 ∧
      (ServeHTTP W p w r).trace.countP Event.isBodyClose = 1 ∧
      (ServeHTTP W p w r).trace.count (.BodyClose r.Body) = 1) := by
  have a1 := acceptCall_countP_zero W p r Event.isBodyClose
    (by intro e; cases e <;> simp [Event.inAccept, Event.isBodyClose])
  have a2 := acceptCall_countP_zero W p r Event.isResponseBodyClose
    (by intro e; cases e <;> simp [Event.inAccept, Event.isResponseBodyClose])
  have a3 := acceptCall_countP_zero W p r Event.isWriteTo
    (by intro e; cases e <;> simp [Event.inAccept, Event.isWriteTo])
  have a4 := acceptCall_count_zero W p r (.BodyClose r.Body) rfl
  have d1 := dispatchCall_countP_zero W p r Event.isBodyClose
    (by intro e; cases e <;> simp [Event.inDispatch, Event.isBodyClose])
  have d2 := dispatchCall_countP_zero W p r Event.isResponseBodyClose
    (by intro e; cases e <;> simp [Event.inDispatch, Event.isResponseBodyClose])
  have d3 := dispatchCall_countP_zero W p r Event.isWriteTo
    (by intro e; cases e <;> simp [Event.inDispatch, Event.isWriteTo])
  have d4 := dispatchCall_count_zero W p r (.BodyClose r.Body) rfl
  constructor
  · intro responseBody hA hD
    have a5 := acceptCall_count_zero W p r (.ResponseBodyClose responseBody) rfl
    have d5 := dispatchCall_count_zero W p r (.ResponseBodyClose responseBody) rfl
    cases hR : (relayCall p w r responseBody).2 with
    | some err =>
      rw [ServeHTTP_of_relay_error W p w r hA hD hR]
      simp only [beforeRelay_of_relay]
      simp [List.countP_append, List.countP_cons, List.count_append, List.count_cons, prologue,
        a1, a2, a3, a4, a5, d1, d2, d3, d4, d5, Event.isBodyClose, Event.isResponseBodyClose,
        Event.isWriteTo]
    | none =>
      rw [ServeHTTP_of_success W p w r hA hD hR]
      simp only [beforeRelay_of_relay]
      simp [List.countP_append, List.countP_cons, List.count_append, List.count_cons, prologue,
        a1, a2, a3, a4, a5, d1, d2, d3, d4, d5, Event.isBodyClose, Event.isResponseBodyClose,
        Event.isWriteTo]
  · intro err hA hD
    rw [ServeHTTP_of_dispatch_error W p w r hA hD]
    simp [List.countP_append, List.countP_cons, List.count_append, List.count_cons, prologue,
      a1, a2, a4, d1, d2, d4, Event.isBodyClose, Event.isResponseBodyClose]

/-- C10 on the demo proxy: a run whose relay write fails, and a run whose
dispatch fails. -/
theorem ServeHTTP_closes_bodies_witness :
    ((ServeHTTP demoWorld demoProxy demoWriterShort demoRequest).trace.countP
        Event.isBodyClose = 1 ∧
      (ServeHTTP demoWorld demoProxy demoWriterShort demoRequest).trace.count
        (.BodyClose demoRequest.Body) = 1 ∧
      (ServeHTTP demoWorld demoProxy demoWriterShort demoRequest).trace.countP
        Event.isResponseBodyClose = 1 ∧
      (ServeHTTP demoWorld demoProxy demoWriterShort demoRequest).trace.count
        (.ResponseBodyClose { data := [1, 2, 3], err := none }) = 1 ∧
      (ServeHTTP demoWorld demoProxy demoWriterShort demoRequest).trace.countP
        Event.isWriteTo = 1 ∧
      (beforeRelay (ServeHTTP demoWorld demoProxy demoWriterShort demoRequest).trace).countP
        Event.isBodyClose = 0 ∧
      (beforeRelay (ServeHTTP demoWorld demoProxy demoWriterShort demoRequest).trace).countP
        Event.isResponseBodyClose = 0) ∧
    ((ServeHTTP demoWorld demoProxyBackendDown demoWriter demoRequest).trace.countP
        Event.isResponseBodyClose = 0 ∧
      (ServeHTTP demoWorld demoProxyBackendDown demoWriter demoRequest).trace.countP
        Event.isBodyClose = 1 ∧
      (ServeHTTP demoWorld demoProxyBackendDown demoWriter demoRequest).trace.count
        (.BodyClose demoRequest.Body) = 1) :=
  ⟨(ServeHTTP_closes_bodies demoWorld demoProxy demoWriterShort demoRequest).1
      { data := [1, 2, 3], err := none } (by decide) rfl,
   (ServeHTTP_closes_bodies demoWorld demoProxyBackendDown demoWriter demoRequest).2
      ⟨[0x70]⟩ (by decide) rfl⟩

/-! ## `encoding/json` output read back -/

theorem decode2_eq (s0 s1 : Nat) :
    (s0 &&& 0x1F) <<< 6 ||| (s1 &&& 0x3F) = s0 % 32 * 64 + s1 % 64 := by
  have h0 : s0 &&& 0x1F = s0 % 32 := Nat.and_pow_two_sub_one_eq_mod s0 5
  have h1 : s1 &&& 0x3F = s1 % 64 := Nat.and_pow_two_sub_one_eq_mod s1 6
  rw [h0, h1, Nat.shiftLeft_eq]
  have := Nat.mul_add_lt_is_or (i := 6) (b := s1 % 64) (by omega) (s0 % 32)
  simp only [Nat.reducePow] at this ⊢
  rw [Nat.mul_comm, ← this]

theorem decode3_eq (s0 s1 s2 : Nat) :
    (s0 &&& 0x0F) <<< 12 ||| (s1 &&& 0x3F) <<< 6 ||| (s2 &&& 0x3F)
      = s0 % 16 * 4096 + s1 % 64 * 64 + s2 % 64 := by
  have h0 : s0 &&& 0x0F = s0 % 16 := Nat.and_pow_two_sub_one_eq_mod s0 4
  have h1 : s1 &&& 0x3F = s1 % 64 := Nat.and_pow_two_sub_one_eq_mod s1 6
  have h2 : s2 &&& 0x3F = s2 % 64 := Nat.and_pow_two_sub_one_eq_mod s2 6
  rw [h0, h1, h2, Nat.shiftLeft_eq, Nat.shiftLeft_eq]
  have e1 := Nat.mul_add_lt_is_or (i := 12) (b := s1 % 64 * 64) (by omega) (s0 % 16)
  have e2 := Nat.mul_add_lt_is_or (i := 6) (b := s2 % 64) (by omega) (s0 % 16 * 64 + s1 % 64)
  simp only [Nat.reducePow] at e1 e2 ⊢
  rw [Nat.mul_comm (s0 % 16) 4096, ← e1]
  have e3 : 4096 * (s0 % 16) + s1 % 64 * 64 = 64 * (s0 % 16 * 64 + s1 % 64) := by omega
  rw [e3, ← e2]

theorem decode4_eq (s0 s1 s2 s3 : Nat) :
    (s0 &&& 0x07) <<< 18 ||| (s1 &&& 0x3F) <<< 12 ||| (s2 &&& 0x3F) <<< 6 ||| (s3 &&& 0x3F)
      = s0 % 8 * 262144 + s1 % 64 * 4096 + s2 % 64 * 64 + s3 % 64 := by
  have h0 : s0 &&& 0x07 = s0 % 8 := Nat.and_pow_two_sub_one_eq_mod s0 3
  have h1 : s1 &&& 0x3F = s1 % 64 := Nat.and_pow_two_sub_one_eq_mod s1 6
  have h2 : s2 &&& 0x3F = s2 % 64 := Nat.and_pow_two_sub_one_eq_mod s2 6
  have h3 : s3 &&& 0x3F = s3 % 64 := Nat.and_pow_two_sub_one_eq_mod s3 6
  rw [h0, h1, h2, h3, Nat.shiftLeft_eq, Nat.shiftLeft_eq, Nat.shiftLeft_eq]
  have e1 := Nat.mul_add_lt_is_or (i := 18) (b := s1 % 64 * 4096) (by omega) (s0 % 8)
  have e2 := Nat.mul_add_lt_is_or (i := 12) (b := s2 % 64 * 64) (by omega)
    (s0 % 8 * 64 + s1 % 64)
  have e3 := Nat.mul_add_lt_is_or (i := 6) (b := s3 % 64) (by omega)
    ((s0 % 8 * 64 + s1 % 64) * 64 + s2 % 64)
  simp only [Nat.reducePow] at e1 e2 e3 ⊢
  rw [Nat.mul_comm (s0 % 8) 262144, ← e1]
  have f1 : 262144 * (s0 % 8) + s1 % 64 * 4096 = 4096 * (s0 % 8 * 64 + s1 % 64) := by omega
  rw [f1, ← e2]
  have f2 : 4096 * (s0 % 8 * 64 + s1 % 64) + s2 % 64 * 64
      = 64 * ((s0 % 8 * 64 + s1 % 64) * 64 + s2 % 64) := by omega
  rw [f2, ← e3]



theorem DecodeRuneInString_take (s : Bytes) :
    DecodeRuneInString (s.take UTFMax) = DecodeRuneInString s := by
  rcases s with _ | ⟨s0, _ | ⟨s1, _ | ⟨s2, _ | ⟨s3, t⟩⟩⟩⟩
  · rfl
  · rfl
  · rfl
  · rfl
  · show DecodeRuneInString [s0, s1, s2, s3] = DecodeRuneInString (s0 :: s1 :: s2 :: s3 :: t)
    unfold DecodeRuneInString
    simp only [List.length]
    have c1 : ¬ (0 + 1 + 1 + 1 + 1 < if s0 < 224 then 2 else if s0 < 240 then 3 else 4) := by
      split_ifs <;> omega
    have c2 : ¬ (t.length + 1 + 1 + 1 + 1 < if s0 < 224 then 2 else if s0 < 240 then 3 else 4) := by
      split_ifs <;> omega
    rw [if_neg c1, if_neg c2]

/-- The outcomes of `DecodeRuneInString` on a string that starts with a
non-ASCII byte: an encoding error, or a well-formed sequence of two, three or
four bytes. -/
theorem DecodeRuneInString_cases (s0 : Nat) (t : Bytes) (hb : 0x80 ≤ s0) :
    DecodeRuneInString (s0 :: t) = (RuneError, 1) ∨
    (∃ s1 t1, t = s1 :: t1 ∧ 0xC2 ≤ s0 ∧ s0 < 0xE0 ∧ 0x80 ≤ s1 ∧ s1 ≤ 0xBF ∧
      DecodeRuneInString (s0 :: t) = (s0 % 32 * 64 + s1 % 64, 2)) ∨
    (∃ s1 s2 t2, t = s1 :: s2 :: t2 ∧ 0xE0 ≤ s0 ∧ s0 < 0xF0 ∧ 0x80 ≤ s1 ∧ s1 ≤ 0xBF ∧
      0x80 ≤ s2 ∧ s2 ≤ 0xBF ∧
      DecodeRuneInString (s0 :: t) = (s0 % 16 * 4096 + s1 % 64 * 64 + s2 % 64, 3)) ∨
    (∃ s1 s2 s3 t3, t = s1 :: s2 :: s3 :: t3 ∧ 0xF0 ≤ s0 ∧ s0 ≤ 0xF4 ∧
      (s0 = 0xF0 → 0x90 ≤ s1) ∧ 0x80 ≤ s1 ∧ s1 ≤ 0xBF ∧ 0x80 ≤ s2 ∧ s2 ≤ 0xBF ∧
      0x80 ≤ s3 ∧ s3 ≤ 0xBF ∧
      DecodeRuneInString (s0 :: t)
        = (s0 % 8 * 262144 + s1 % 64 * 4096 + s2 % 64 * 64 + s3 % 64, 4)) := by
  have h80 : ¬ s0 < 128 := by omega
  by_cases hr : s0 < 194 ∨ 244 < s0
  · left
    simp [DecodeRuneInString, h80, hr]
  · have hr1 : ¬ s0 < 194 := fun h => hr (Or.inl h)
    have hr2 : ¬ 244 < s0 := fun h => hr (Or.inr h)
    by_cases h2 : s0 < 224
    · -- two bytes
      have e1 : s0 ≠ 224 := by omega
      have e2 : s0 ≠ 240 := by omega
      have e3 : s0 ≠ 237 := by omega
      have e4 : s0 ≠ 244 := by omega
      rcases t with _ | ⟨s1, t1⟩
      · left
        simp [DecodeRuneInString, h80, hr, h2]
      · by_cases hs1 : s1 < 128 ∨ 191 < s1
        · left
          simp [DecodeRuneInString, h80, hr, h2, e1, e2, e3, e4, hs1]
        · right; left
          refine ⟨s1, t1, rfl, by omega, h2, by omega, by omega, ?_⟩
          simp [DecodeRuneInString, h80, hr, h2, e1, e2, e3, e4, hs1, decode2_eq]
    · by_cases h3 : s0 < 240
      · -- three bytes
        have e2 : s0 ≠ 240 := by omega
        have e4 : s0 ≠ 244 := by omega
        rcases t with _ | ⟨s1, _ | ⟨s2, t2⟩⟩
        · left
          simp [DecodeRuneInString, h80, hr, h2, h3]
        · left
          simp [DecodeRuneInString, h80, hr, h2, h3]
        · by_cases hs1 : (s1 < if s0 = 224 then 160 else 128) ∨ (if s0 = 237 then 159 else 191) < s1
          · left
            simp [DecodeRuneInString, h80, hr, h2, h3, e2, e4, hs1]
          · have b1 : 0x80 ≤ s1 ∧ s1 ≤ 0xBF := by split_ifs at hs1 <;> omega
            by_cases hs2 : s2 < 128 ∨ 191 < s2
            · left
              simp [DecodeRuneInString, h80, hr, h2, h3, e2, e4, hs1, hs2]
            · right; right; left
              refine ⟨s1, s2, t2, rfl, by omega, h3, b1.1, b1.2, by omega, by omega, ?_⟩
              simp [DecodeRuneInString, h80, hr, h2, h3, e2, e4, hs1, hs2, decode3_eq]
      · -- four bytes
        have e1 : s0 ≠ 224 := by omega
        have e3 : s0 ≠ 237 := by omega
        rcases t with _ | ⟨s1, _ | ⟨s2, _ | ⟨s3, t3⟩⟩⟩
        · left
          simp [DecodeRuneInString, h80, hr, h2, h3]
        · left
          simp [DecodeRuneInString, h80, hr, h2, h3]
        · left
          simp [DecodeRuneInString, h80, hr, h2, h3]
        · by_cases hs1 : (s1 < if s0 = 240 then 144 else 128) ∨ (if s0 = 244 then 143 else 191) < s1
          · left
            simp [DecodeRuneInString, h80, hr, h2, h3, e1, e3, hs1]
          · have b1 : 0x80 ≤ s1 ∧ s1 ≤ 0xBF ∧ (s0 = 0xF0 → 0x90 ≤ s1) := by
              split_ifs at hs1 <;> omega
            by_cases hs2 : s2 < 128 ∨ 191 < s2
            · left
              simp [DecodeRuneInString, h80, hr, h2, h3, e1, e3, hs1, hs2]
            · by_cases hs3 : s3 < 128 ∨ 191 < s3
              · left
                simp [DecodeRuneInString, h80, hr, h2, h3, e1, e3, hs1, hs2, hs3]
              · right; right; right
                refine ⟨s1, s2, s3, t3, rfl, by omega, by omega, b1.2.2, b1.1, b1.2.1, by omega,
                  by omega, by omega, by omega, ?_⟩
                simp [DecodeRuneInString, h80, hr, h2, h3, e1, e3, hs1, hs2, hs3, decode4_eq]


/-- A non-ASCII lead byte decodes to an encoding error of width one or to a
rune at least two bytes wide. -/
theorem DecodeRuneInString_width (b : Nat) (t : Bytes) (hb : 0x80 ≤ b) :
    DecodeRuneInString (b :: t) = (RuneError, 1) ∨
    (2 ≤ (DecodeRuneInString (b :: t)).2 ∧ (DecodeRuneInString (b :: t)).2 ≤ 4) := by
  rcases DecodeRuneInString_cases b t hb with h | ⟨_, _, _, _, _, _, _, h⟩ |
    ⟨_, _, _, _, _, _, _, _, _, _, h⟩ | ⟨_, _, _, _, _, _, _, _, _, _, _, _, _, _, h⟩
  · exact Or.inl h
  · right; rw [h]; simp
  · right; rw [h]; simp
  · right; rw [h]; simp

/-- The encoder loop never runs out of fuel: with at least as much fuel as
there are bytes left, its output does not depend on the fuel. -/
theorem appendStringLoop_fuel (f1 : Nat) :
    ∀ (f2 : Nat) (s : Bytes), s.length ≤ f1 → s.length ≤ f2 →
      appendStringLoop f1 s = appendStringLoop f2 s := by
  induction f1 with
  | zero =>
    intro f2 s h1 _
    have hs : s = [] := List.length_eq_zero.mp (Nat.le_zero.mp h1)
    subst hs
    cases f2 <;> simp [appendStringLoop]
  | succ f1 ih =>
    intro f2 s h1 h2
    rcases s with _ | ⟨b, t⟩
    · cases f2 <;> simp [appendStringLoop]
    · rcases f2 with _ | f2
      · simp at h2
      · have l1 : t.length ≤ f1 := by simpa using h1
        have l2 : t.length ≤ f2 := by simpa using h2
        by_cases hb : b < RuneSelf
        · simp only [appendStringLoop, hb, if_true, ih f2 t l1 l2]
        · have hb80 : 0x80 ≤ b := by simpa [RuneSelf] using hb
          have hdec := DecodeRuneInString_take (b :: t)
          simp only [appendStringLoop, hb, if_false, hdec]
          rcases DecodeRuneInString_width b t hb80 with herr | ⟨hw, _⟩
          · simp only [herr, and_self, if_true, ih f2 t l1 l2]
          · have d1 : ((b :: t).drop (DecodeRuneInString (b :: t)).2).length ≤ f1 := by
              simp only [List.length_drop, List.length_cons]
              omega
            have d2 : ((b :: t).drop (DecodeRuneInString (b :: t)).2).length ≤ f2 := by
              simp only [List.length_drop, List.length_cons]
              omega
            have hne : ¬ ((DecodeRuneInString (b :: t)).1 = RuneError
                ∧ (DecodeRuneInString (b :: t)).2 = 1) := by
              intro h
              omega
            rw [ih f2 _ d1 d2, if_neg hne, if_neg hne]

/-- One step of `scanString` on a non-empty input. -/
theorem scanString_cons (b : Nat) (rest : Bytes) :
    scanString (b :: rest) =
      if b = 0x22 then some ([], rest)
      else if b = 0x5C then
        match rest with
        | [] => none
        | c :: rest1 =>
          if c = 0x75 then
            match rest1 with
            | h1 :: h2 :: h3 :: h4 :: rest2 =>
              match hexValue h1, hexValue h2, hexValue h3, hexValue h4 with
              | some d1, some d2, some d3, some d4 =>
                let cp := ((d1 * 16 + d2) * 16 + d3) * 16 + d4
                if 0xD800 ≤ cp ∧ cp < 0xE000 then none
                else (scanString rest2).map fun r => (encodeRune cp ++ r.1, r.2)
              | _, _, _, _ => none
            | _ => none
          else
            match unescape c with
            | some x => (scanString rest1).map fun r => (x :: r.1, r.2)
            | none => none
      else if b < 0x20 then none
      else (scanString rest).map fun r => (b :: r.1, r.2) := by
  rw [scanString.eq_def]
  rfl

theorem scanString_quote (X : Bytes) : scanString (0x22 :: X) = some ([], X) := by
  simp [scanString_cons]

theorem scanString_cons_plain (b : Nat) (X : Bytes) (h1 : b ≠ 0x22) (h2 : b ≠ 0x5C)
    (h3 : ¬ b < 0x20) :
    scanString (b :: X) = (scanString X).map fun r => (b :: r.1, r.2) := by
  simp [scanString_cons, h1, h2, h3]

theorem scanString_append_plain (pre X : Bytes) (h : ∀ x ∈ pre, 0x80 ≤ x) :
    scanString (pre ++ X) = (scanString X).map fun r => (pre ++ r.1, r.2) := by
  induction pre with
  | nil => simp
  | cons b pre ih =>
    have hb : 0x80 ≤ b := h b (by simp)
    have ih1 := ih (fun x hx => h x (by simp [hx]))
    rw [List.cons_append, scanString_cons_plain b _ (by omega) (by omega) (by omega), ih1]
    cases scanString X <;> simp

theorem scanString_escapeByte (b : Nat) (X : Bytes) (hb : b < 0x80) (hs : htmlSafeSet b = false) :
    scanString (escapeByte b ++ X) = (scanString X).map fun r => (b :: r.1, r.2) := by
  have e1 : b >>> 4 = b / 16 := Nat.shiftRight_eq_div_pow b 4
  have e2 : b &&& 0xF = b % 16 := Nat.and_pow_two_sub_one_eq_mod b 4
  simp only [escapeByte, e1, e2]
  clear e1 e2
  interval_cases b <;> first
    | (exfalso; revert hs; decide)
    | simp [hex, scanString_cons, unescape, hexValue, encodeRune]

theorem scanString_u2028 (X : Bytes) :
    scanString ([0x5C, 0x75, 0x32, 0x30, 0x32, 0x38] ++ X)
      = (scanString X).map fun r => ([0xE2, 0x80, 0xA8] ++ r.1, r.2) := by
  simp [scanString_cons, hexValue, encodeRune]

theorem scanString_u2029 (X : Bytes) :
    scanString ([0x5C, 0x75, 0x32, 0x30, 0x32, 0x39] ++ X)
      = (scanString X).map fun r => ([0xE2, 0x80, 0xA9] ++ r.1, r.2) := by
  simp [scanString_cons, hexValue, encodeRune]


/-- Reading back what the encoder loop wrote for a well-formed UTF-8 string
`s`, up to the closing quote, gives `s` and leaves what follows the quote. -/
theorem scanString_appendStringLoop (fuel : Nat) :
    ∀ (s X : Bytes), s.length ≤ fuel → utf8ValidLoop fuel s = true →
      scanString (appendStringLoop fuel s ++ 0x22 :: X) = some (s, X) := by
  induction fuel with
  | zero =>
    intro s X hlen _
    have hs : s = [] := List.length_eq_zero.mp (Nat.le_zero.mp hlen)
    subst hs
    simp [appendStringLoop, scanString_quote]
  | succ fuel ih =>
    intro s X hlen hv
    rcases s with _ | ⟨b, t⟩
    · simp [appendStringLoop, scanString_quote]
    · have hlen1 : t.length ≤ fuel := by simpa using hlen
      by_cases hb : b < RuneSelf
      · have hvt : utf8ValidLoop fuel t = true := by simpa [utf8ValidLoop, hb] using hv
        have iht := ih t X hlen1 hvt
        cases hsafe : htmlSafeSet b with
        | true =>
          have hs := hsafe
          simp only [htmlSafeSet, decide_eq_true_eq] at hs
          have hstep : appendStringLoop (fuel + 1) (b :: t) = b :: appendStringLoop fuel t := by
            simp [appendStringLoop, hb, hsafe]
          rw [hstep, List.cons_append,
            scanString_cons_plain b _ (by omega) (by omega) (by omega), iht]
          rfl
        | false =>
          have hstep : appendStringLoop (fuel + 1) (b :: t)
              = escapeByte b ++ appendStringLoop fuel t := by
            simp [appendStringLoop, hb, hsafe]
          rw [hstep, List.append_assoc, scanString_escapeByte b _ hb hsafe, iht]
          rfl
      · have hb80 : 0x80 ≤ b := by simpa [RuneSelf] using hb
        have hdec := DecodeRuneInString_take (b :: t)
        rcases DecodeRuneInString_cases b t hb80 with herr | h2 | h3 | h4
        · simp [utf8ValidLoop, hb, herr] at hv
        · obtain ⟨s1, t1, rfl, _, _, _, _, hD⟩ := h2
          have hvt : utf8ValidLoop fuel t1 = true := by
            simpa [utf8ValidLoop, hb, hD, RuneError] using hv
          have iht := ih t1 X (by simp at hlen1; omega) hvt
          have hstep : appendStringLoop (fuel + 1) (b :: s1 :: t1)
              = [b, s1] ++ appendStringLoop fuel t1 := by
            have c1 : ¬ (b % 32 * 64 + s1 % 64 = 0x2028 ∨ b % 32 * 64 + s1 % 64 = 0x2029) := by
              omega
            simp only [appendStringLoop, hb, hdec, hD, if_false, if_neg c1]
            simp [RuneError]
          rw [hstep, List.append_assoc,
            scanString_append_plain [b, s1] _ (by simp; omega), iht]
          rfl
        · obtain ⟨s1, s2, t2, rfl, _, _, _, _, _, _, hD⟩ := h3
          have hvt : utf8ValidLoop fuel t2 = true := by
            simpa [utf8ValidLoop, hb, hD, RuneError] using hv
          have iht := ih t2 X (by simp at hlen1; omega) hvt
          by_cases c8 : b % 16 * 4096 + s1 % 64 * 64 + s2 % 64 = 0x2028
          · have eb : b = 0xE2 := by omega
            have e1 : s1 = 0x80 := by omega
            have e2 : s2 = 0xA8 := by omega
            subst eb e1 e2
            have hx : hex (0x2028 &&& 0xF) = 0x38 := by decide
            have hstep : appendStringLoop (fuel + 1) (0xE2 :: 0x80 :: 0xA8 :: t2)
                = [0x5C, 0x75, 0x32, 0x30, 0x32, 0x38] ++ appendStringLoop fuel t2 := by
              simp only [appendStringLoop, hb, hdec, hD, if_false]
              simp [RuneError, hx]
            rw [hstep, List.append_assoc, scanString_u2028, iht]
            rfl
          · by_cases c9 : b % 16 * 4096 + s1 % 64 * 64 + s2 % 64 = 0x2029
            · have eb : b = 0xE2 := by omega
              have e1 : s1 = 0x80 := by omega
              have e2 : s2 = 0xA9 := by omega
              subst eb e1 e2
              have hx : hex (0x2029 &&& 0xF) = 0x39 := by decide
              have hstep : appendStringLoop (fuel + 1) (0xE2 :: 0x80 :: 0xA9 :: t2)
                  = [0x5C, 0x75, 0x32, 0x30, 0x32, 0x39] ++ appendStringLoop fuel t2 := by
                simp only [appendStringLoop, hb, hdec, hD, if_false]
                simp [RuneError, hx]
              rw [hstep, List.append_assoc, scanString_u2029, iht]
              rfl
            · have hstep : appendStringLoop (fuel + 1) (b :: s1 :: s2 :: t2)
                  = [b, s1, s2] ++ appendStringLoop fuel t2 := by
                have c1 : ¬ (b % 16 * 4096 + s1 % 64 * 64 + s2 % 64 = 0x2028
                    ∨ b % 16 * 4096 + s1 % 64 * 64 + s2 % 64 = 0x2029) := by
                  omega
                simp only [appendStringLoop, hb, hdec, hD, if_false, if_neg c1]
                simp [RuneError]
              rw [hstep, List.append_assoc,
                scanString_append_plain [b, s1, s2] _ (by simp; omega), iht]
              rfl
        · obtain ⟨s1, s2, s3, t3, rfl, _, _, _, _, _, _, _, _, _, hD⟩ := h4
          have hvt : utf8ValidLoop fuel t3 = true := by
            simpa [utf8ValidLoop, hb, hD, RuneError] using hv
          have iht := ih t3 X (by simp at hlen1; omega) hvt
          have hstep : appendStringLoop (fuel + 1) (b :: s1 :: s2 :: s3 :: t3)
              = [b, s1, s2, s3] ++ appendStringLoop fuel t3 := by
            have c1 : ¬ (b % 8 * 262144 + s1 % 64 * 4096 + s2 % 64 * 64 + s3 % 64 = 0x2028
                ∨ b % 8 * 262144 + s1 % 64 * 4096 + s2 % 64 * 64 + s3 % 64 = 0x2029) := by
              omega
            simp only [appendStringLoop, hb, hdec, hD, if_false, if_neg c1]
            simp [RuneError]
          rw [hstep, List.append_assoc,
            scanString_append_plain [b, s1, s2, s3] _ (by simp; omega), iht]
          rfl

/-- A JSON reader gets a well-formed UTF-8 string back from the literal the
encoder wrote for it. -/
theorem parseString_appendString (s X : Bytes) (hv : utf8Valid s = true) :
    parseString (appendString s ++ X) = some (s, X) := by
  have h := scanString_appendStringLoop s.length s X (Nat.le_refl _) hv
  simpa [appendString, parseString] using h

/-- Reading back the body `Encode` writes for an envelope with an empty
operation name and a well-formed UTF-8 query. -/
theorem decodeEnvelope_Encode (query out : Bytes) (hv : utf8Valid query = true)
    (hE : Encode { OperationName := [], Query := query } = .ok out) :
    decodeEnvelope out = some { OperationName := [], Query := query } := by
  have hk1 : operationNameKey
      = appendString [0x6F, 0x70, 0x65, 0x72, 0x61, 0x74, 0x69, 0x6F, 0x6E, 0x4E, 0x61, 0x6D, 0x65]
        ++ [0x3A] := by decide
  have hk2 : queryKey = appendString [0x71, 0x75, 0x65, 0x72, 0x79] ++ [0x3A] := by decide
  have v1 : utf8Valid [0x6F, 0x70, 0x65, 0x72, 0x61, 0x74, 0x69, 0x6F, 0x6E, 0x4E, 0x61, 0x6D, 0x65]
      = true := by decide
  have v2 : utf8Valid [0x71, 0x75, 0x65, 0x72, 0x79] = true := by decide
  have v3 : utf8Valid [] = true := by decide
  simp only [Encode, Except.ok.injEq] at hE
  subst hE
  simp only [decodeEnvelope, hk1, hk2, List.append_assoc, List.singleton_append, expect,
    if_true, Option.bind_some, Option.some_bind, parseString_appendString _ _ v1,
    parseString_appendString _ _ v2, parseString_appendString _ _ v3,
    parseString_appendString _ _ hv, List.cons_append, List.nil_append]
  simp

/-! ## The outbound envelope (C5) -/

/-- C5 as stated fails: for the buffer content `0xFF`, which is not UTF-8, the
body posted to the backend is the envelope text with an empty operation name
and the query literal `\ufffd`, followed by a newline; its query member reads
back as the three bytes of U+FFFD, not as the byte that was in the buffer. -/
theorem DispatchRequest_replaces_invalid_utf8 :
    sentBody (DispatchRequest demoProxy { ptr := 10, data := [0xFF] }).1
      = some [0x7B, 0x22, 0x6F, 0x70, 0x65, 0x72, 0x61, 0x74, 0x69, 0x6F, 0x6E, 0x4E, 0x61, 0x6D,
          0x65, 0x22, 0x3A, 0x22, 0x22, 0x2C, 0x22, 0x71, 0x75, 0x65, 0x72, 0x79, 0x22, 0x3A,
          0x22, 0x5C, 0x75, 0x66, 0x66, 0x66, 0x64, 0x22, 0x7D, 0x0A] ∧
    (sentBody (DispatchRequest demoProxy { ptr := 10, data := [0xFF] }).1).bind decodeEnvelope
      = some { OperationName := [], Query := [0xEF, 0xBF, 0xBD] } ∧
    (sentBody (DispatchRequest demoProxy { ptr := 10, data := [0xFF] }).1).bind decodeEnvelope
      ≠ some { OperationName := [], Query := [0xFF] } := by
  decide

/-- C5, amended: for every buffer content `b` that is well-formed UTF-8,
`DispatchRequest` makes exactly one `Client.Post` call, its body is what
`json.Encoder.Encode` writes for the envelope with the empty operation name
and the query `b`, and that body reads back as an envelope whose operation
name is empty and whose query is `b`, byte for byte. -/
theorem DispatchRequest_posts_rewritten_query {σ : Type} (p : Proxy σ) (buff : Buffer)
    (hv : utf8Valid buff.data = true) :
    (DispatchRequest p buff).1.countP Event.isClientPost = 1 ∧
    sentBody (DispatchRequest p buff).1
      = (Encode { OperationName := [], Query := buff.data }).toOption ∧
    (sentBody (DispatchRequest p buff).1).bind decodeEnvelope
      = some { OperationName := [], Query := buff.data } := by
  cases hE : Encode { OperationName := [], Query := buff.data } with
  | error e => simp [Encode] at hE
  | ok out =>
    have hdec := decodeEnvelope_Encode buff.data out hv hE
    have hsent : sentBody (DispatchRequest p buff).1 = some out := by
      unfold DispatchRequest
      simp only [Buffer.String, hE]
      split <;> simp [sentBody]
    refine ⟨?_, ?_, ?_⟩
    · unfold DispatchRequest
      simp only [Buffer.String, hE]
      split <;> simp [List.countP_cons, Event.isClientPost]
    · rw [hsent]
      rfl
    · rw [hsent]
      exact hdec

/-- C5, amended, at the buffer content `q<`: the angle bracket travels as an
escape and reads back as itself. -/
theorem DispatchRequest_posts_rewritten_query_witness :
    (DispatchRequest demoProxy { ptr := 10, data := [0x71, 0x3C] }).1.countP
      Event.isClientPost = 1 ∧
    sentBody (DispatchRequest demoProxy { ptr := 10, data := [0x71, 0x3C] }).1
      = (Encode { OperationName := [], Query := [0x71, 0x3C] }).toOption ∧
    (sentBody (DispatchRequest demoProxy { ptr := 10, data := [0x71, 0x3C] }).1).bind
      decodeEnvelope = some { OperationName := [], Query := [0x71, 0x3C] } :=
  DispatchRequest_posts_rewritten_query demoProxy { ptr := 10, data := [0x71, 0x3C] }
    (by decide)

end GraphqlProxy
